import Mathlib

/-!
Shallow embedding of the container-query polyfill's CSS core
(tokenizer, block/rule parser, media-feature/condition parsers,
container-rule parser, condition evaluator, transformer, serializer),
translated from the TypeScript sources, together with theorems checking
the specification's claims against it.

Modelling conventions:
* JavaScript numbers are modelled by rationals; `JSNum := Option ℚ`
  with `none` playing the role of NaN.  IEEE rounding and infinities are
  outside the model (division of a nonzero rational by zero, which JS
  maps to ±Infinity, is modelled as NaN; no claim depends on it).
* JavaScript exceptions are modelled with `Except JsError`; the
  `PARSE_ERROR` sentinel of the source is modelled with `Option`
  (`none` = `PARSE_ERROR`), which the source distinguishes from thrown
  exceptions.
* `null`/`undefined`-typed values are `Option`.
* Functions whose termination relies on input exhaustion take a `fuel`
  argument; running out of fuel is reported as a thrown error.
* Browser state consulted by the transformer (`:where()` support,
  `Element.matches`, `new URL`, build-time defines, the per-run salt) is
  collected in an `Env` parameter; the module-global `CONTAINER_ID`
  counter is threaded as explicit state.
-/

namespace CQPoly

/-- A thrown JavaScript exception (message only). -/
abbrev JsError := String

/-- JavaScript number in the rational fragment; `none` models NaN. -/
abbrev JSNum := Option ℚ

/-- Multiplication; NaN propagates. -/
def jsMul : JSNum → JSNum → JSNum
  | some a, some b => some (a * b)
  | _, _ => none

/-- Division; NaN propagates.  JS maps division by zero to ±Infinity,
which is outside the rational model and mapped to NaN here. -/
def jsDiv : JSNum → JSNum → JSNum
  | some a, some b => if b = 0 then none else some (a / b)
  | _, _ => none

/-- `Math.min`; NaN propagates. -/
def jsMin : JSNum → JSNum → JSNum
  | some a, some b => some (min a b)
  | _, _ => none

/-- `Math.max`; NaN propagates. -/
def jsMax : JSNum → JSNum → JSNum
  | some a, some b => some (max a b)
  | _, _ => none

/-- `===` on numbers: false whenever an operand is NaN. -/
def jsEq : JSNum → JSNum → Bool
  | some a, some b => a = b
  | _, _ => false

/-- `<` on numbers: false whenever an operand is NaN. -/
def jsLt : JSNum → JSNum → Bool
  | some a, some b => a < b
  | _, _ => false

/-- `<=` on numbers: false whenever an operand is NaN. -/
def jsLe : JSNum → JSNum → Bool
  | some a, some b => a ≤ b
  | _, _ => false

/-- `>` on numbers: false whenever an operand is NaN. -/
def jsGt (a b : JSNum) : Bool := jsLt b a

/-- `>=` on numbers: false whenever an operand is NaN. -/
def jsGe (a b : JSNum) : Bool := jsLe b a

/-! ### evaluate.ts : condition AST, values, evaluation context -/

/-- `ComparisonOperator` from parse-media-feature.ts. -/
inductive ComparisonOperator
  | EQUAL
  | GREATER_THAN
  | GREATER_THAN_EQUAL
  | LESS_THAN
  | LESS_THAN_EQUAL
deriving DecidableEq, Repr

/-- `SizeFeature` from evaluate.ts (AspectRatio is spelled `aspectRatioF`). -/
inductive SizeFeature
  | width
  | height
  | inlineSize
  | blockSize
  | aspectRatioF
  | orientation
deriving DecidableEq, Repr

/-- `ContainerType` bit set from evaluate.ts. -/
inductive ContainerType
  | none
  | inlineSize
  | blockSize
deriving DecidableEq, Repr

/-- Orientation keyword values. -/
inductive OrientationKw
  | portrait
  | landscape
deriving DecidableEq, Repr

/-- `Value` from evaluate.ts: unknown / number / dimension / orientation / boolean. -/
inductive Value
  | unknown
  | number (value : JSNum)
  | dimension (value : JSNum) (unit : String)
  | orientation (value : OrientationKw)
  | boolean (value : Bool)
deriving DecidableEq, Repr

/-- `ExpressionNode` from evaluate.ts. -/
inductive ExpressionNode
  | negate (value : ExpressionNode)
  | conjunction (left right : ExpressionNode)
  | disjunction (left right : ExpressionNode)
  | comparison (operator : ComparisonOperator) (left right : ExpressionNode)
  | feature (feature : SizeFeature)
  | value (value : Value)
deriving DecidableEq, Repr

/-- `SizeFeatures` snapshot (missing entries are `undefined` in JS). -/
structure SizeFeatures where
  width : Option ℚ := none
  height : Option ℚ := none
  blockSize : Option ℚ := none
  inlineSize : Option ℚ := none
deriving DecidableEq, Repr

/-- `WritingAxis` from evaluate.ts. -/
inductive WritingAxis
  | horizontal
  | vertical
deriving DecidableEq, Repr

/-- `TreeContext` from evaluate.ts (`cqw`/`cqh` are nullable). -/
structure TreeContext where
  cqw : Option ℚ
  cqh : Option ℚ
  fontSize : ℚ
  rootFontSize : ℚ
  writingAxis : WritingAxis
deriving DecidableEq, Repr

/-- `QueryContext`: precomputed feature map plus tree context.  The JS
`Map<SizeFeature, Value>` is modelled as an association list. -/
structure QueryContext where
  sizeFeatures : List (SizeFeature × Value)
  treeContext : TreeContext
deriving DecidableEq, Repr

/-- `Map.get` on the modelled feature map. -/
def mapGet (m : List (SizeFeature × Value)) (f : SizeFeature) : Option Value :=
  (m.find? (fun p => p.1 = f)).map (·.2)

/-- `precomputeFeatureValue` from evaluate.ts. -/
def precomputeFeatureValue (feature : SizeFeature) (sizeFeatures : SizeFeatures) : Value :=
  let width := sizeFeatures.width
  let height := sizeFeatures.height
  let inlineSize := sizeFeatures.inlineSize
  let blockSize := sizeFeatures.blockSize
  match feature with
  | .width =>
    match width with
    | some w => .dimension (some w) "px"
    | none => .unknown
  | .inlineSize =>
    match inlineSize with
    | some w => .dimension (some w) "px"
    | none => .unknown
  | .height =>
    match height with
    | some h => .dimension (some h) "px"
    | none => .unknown
  | .blockSize =>
    match blockSize with
    | some h => .dimension (some h) "px"
    | none => .unknown
  | .aspectRatioF =>
    match width, height with
    | some w, some h => if 0 < h then .number (some (w / h)) else .unknown
    | _, _ => .unknown
  | .orientation =>
    match width, height with
    | some w, some h => .orientation (if w ≤ h then .portrait else .landscape)
    | _, _ => .unknown

/-- `toBooleanValue` from evaluate.ts. -/
def toBooleanValue (value : Bool) : Value := .boolean value

/-- `compareNumericValueInternal` from evaluate.ts (on JS numbers). -/
def compareNumericValueInternal (lhs rhs : JSNum) (operator : ComparisonOperator) : Bool :=
  match operator with
  | .EQUAL => jsEq lhs rhs
  | .GREATER_THAN => jsGt lhs rhs
  | .GREATER_THAN_EQUAL => jsGe lhs rhs
  | .LESS_THAN => jsLt lhs rhs
  | .LESS_THAN_EQUAL => jsLe lhs rhs

/-- `compareNumericValue` from evaluate.ts. -/
def compareNumericValue (lhs rhs : JSNum) (operator : ComparisonOperator) : Value :=
  toBooleanValue (compareNumericValueInternal lhs rhs operator)

/-- `transformNullableNumbers` from evaluate.ts: if either side is null
the other is returned, otherwise the transform is applied. -/
def transformNullableNumbers (lhs rhs : Option JSNum)
    (transform : JSNum → JSNum → JSNum) : Option JSNum :=
  match lhs, rhs with
  | none, rhs => rhs
  | lhs, none => lhs
  | some l, some r => some (transform l r)

/-- The `cqi` branch of `getContainerRelativeLengthScale` from evaluate.ts. -/
def scaleCqi (treeContext : TreeContext) : Option JSNum :=
  match treeContext.writingAxis with
  | .horizontal => treeContext.cqw.map some
  | .vertical => treeContext.cqh.map some

/-- The `cqb` branch of `getContainerRelativeLengthScale` from evaluate.ts. -/
def scaleCqb (treeContext : TreeContext) : Option JSNum :=
  match treeContext.writingAxis with
  | .vertical => treeContext.cqw.map some
  | .horizontal => treeContext.cqh.map some

/-- `getContainerRelativeLengthScale` from evaluate.ts, restricted to the
six container-relative units (other unit strings never reach it).  The
source's recursive calls at `'cqi'`/`'cqb'` are the two helpers above. -/
def getContainerRelativeLengthScale (unit : String) (treeContext : TreeContext) :
    Option JSNum :=
  match unit with
  | "cqw" => treeContext.cqw.map some
  | "cqh" => treeContext.cqh.map some
  | "cqi" => scaleCqi treeContext
  | "cqb" => scaleCqb treeContext
  | "cqmin" =>
    transformNullableNumbers (scaleCqi treeContext) (scaleCqb treeContext) jsMin
  | "cqmax" =>
    transformNullableNumbers (scaleCqi treeContext) (scaleCqb treeContext) jsMax
  | _ => none

/-- `evaluateDimensionToPixels` from evaluate.ts. -/
def evaluateDimensionToPixels (value : JSNum) (unit : String)
    (treeContext : TreeContext) : Option JSNum :=
  match unit with
  | "px" => some value
  | "rem" => some (jsMul value (some treeContext.rootFontSize))
  | "em" => some (jsMul value (some treeContext.fontSize))
  | "cqw" | "cqh" | "cqi" | "cqb" | "cqmin" | "cqmax" =>
    transformNullableNumbers
      (some value)
      (getContainerRelativeLengthScale unit treeContext)
      jsMul
  | _ => none

/-- `coerceToPixelDimension` from evaluate.ts. -/
def coerceToPixelDimension (value : Value) (context : QueryContext) : Option JSNum :=
  match value with
  | .number v => if jsEq v (some 0) then some (some 0) else none
  | .dimension v unit => evaluateDimensionToPixels v unit context.treeContext
  | _ => none

/-- `compareValues` from evaluate.ts, instantiated at orientations. -/
def compareOrientationValues (lhs rhs : OrientationKw)
    (operator : ComparisonOperator) : Value :=
  match operator with
  | .EQUAL => toBooleanValue (lhs = rhs)
  | _ => .unknown

/-- `compareValues` from evaluate.ts, instantiated at booleans. -/
def compareBooleanValues (lhs rhs : Bool) (operator : ComparisonOperator) : Value :=
  match operator with
  | .EQUAL => toBooleanValue (lhs = rhs)
  | _ => .unknown

/-- The `Feature` branch of `evaluateExpressionToValue` from evaluate.ts,
split out so both mutually recursive evaluators can share it. -/
def evaluateFeatureToValue (f : SizeFeature) (context : QueryContext) : Value :=
  match mapGet context.sizeFeatures f with
  | none => .unknown
  | some v => v

/-- `evaluateValueToBoolean` from evaluate.ts. -/
def evaluateValueToBoolean (value : Value) : Value :=
  match value with
  | .boolean _ => value
  | .number v => .boolean (jsGt v (some 0))
  | .dimension v _ => .boolean (jsGt v (some 0))
  | _ => .unknown

mutual

/-- `evaluateExpressionToValue` from evaluate.ts. -/
def evaluateExpressionToValue (node : ExpressionNode) (context : QueryContext) : Value :=
  match node with
  | .negate v => evaluateExpressionToBoolean (.negate v) context
  | .conjunction l r => evaluateExpressionToBoolean (.conjunction l r) context
  | .disjunction l r => evaluateExpressionToBoolean (.disjunction l r) context
  | .comparison op l r => evaluateExpressionToBoolean (.comparison op l r) context
  | .feature f => evaluateFeatureToValue f context
  | .value v => v
termination_by (2 * sizeOf node, 1)

/-- `evaluateComparisonExpression` from evaluate.ts. -/
def evaluateComparisonExpression (operator : ComparisonOperator)
    (leftNode rightNode : ExpressionNode) (context : QueryContext) : Value :=
  let left := evaluateExpressionToValue leftNode context
  let right := evaluateExpressionToValue rightNode context
  match left, right with
  | .orientation l, .orientation r => compareOrientationValues l r operator
  | .boolean l, .boolean r => compareBooleanValues l r operator
  | left, right =>
    if (left matches .dimension _ _) ∨ (right matches .dimension _ _) then
      match coerceToPixelDimension left context, coerceToPixelDimension right context with
      | some lhs, some rhs => compareNumericValue lhs rhs operator
      | _, _ => .unknown
    else
      match left, right with
      | .number l, .number r => compareNumericValue l r operator
      | _, _ => .unknown
termination_by (2 * sizeOf leftNode + 2 * sizeOf rightNode + 1, 0)

/-- `evaluateConjunctionExpression` from evaluate.ts (short-circuit). -/
def evaluateConjunctionExpression (leftNode rightNode : ExpressionNode)
    (context : QueryContext) : Value :=
  let left := evaluateExpressionToBoolean leftNode context
  if left = .boolean true then evaluateExpressionToBoolean rightNode context else left
termination_by (2 * sizeOf leftNode + 2 * sizeOf rightNode + 1, 0)

/-- `evaluateDisjunctionExpression` from evaluate.ts (short-circuit). -/
def evaluateDisjunctionExpression (leftNode rightNode : ExpressionNode)
    (context : QueryContext) : Value :=
  let left := evaluateExpressionToBoolean leftNode context
  if left = .boolean true then left else evaluateExpressionToBoolean rightNode context
termination_by (2 * sizeOf leftNode + 2 * sizeOf rightNode + 1, 0)

/-- `evaluateExpressionToBoolean` from evaluate.ts.  The `Feature` branch
of the source reads `evaluateValueToBoolean(evaluateExpressionToValue(node))`;
since `node` is a `Feature` node this is `evaluateFeatureToValue`. -/
def evaluateExpressionToBoolean (node : ExpressionNode) (context : QueryContext) : Value :=
  match node with
  | .comparison op l r => evaluateComparisonExpression op l r context
  | .conjunction l r => evaluateConjunctionExpression l r context
  | .disjunction l r => evaluateDisjunctionExpression l r context
  | .negate v =>
    match evaluateExpressionToBoolean v context with
    | .boolean b => .boolean (!b)
    | _ => .unknown
  | .feature f => evaluateValueToBoolean (evaluateFeatureToValue f context)
  | .value v => evaluateValueToBoolean v
termination_by (2 * sizeOf node, 0)

end

/-- `ContainerRule` from parser.ts; the JS `Set<SizeFeature>` is modelled
as its insertion-ordered element list. -/
structure ContainerRule where
  name : Option String
  condition : ExpressionNode
  features : List SizeFeature
deriving DecidableEq, Repr

/-- The context argument of `evaluateContainerCondition`. -/
structure EvalContext where
  sizeFeatures : SizeFeatures
  treeContext : TreeContext
deriving DecidableEq, Repr

/-- The precompute loop of `evaluateContainerCondition`: fills the feature
map, bailing out with `none` at the first unknown feature value. -/
def precomputeLoop (features : List SizeFeature) (sizeFeatureValues : SizeFeatures)
    (acc : List (SizeFeature × Value)) : Option (List (SizeFeature × Value)) :=
  match features with
  | [] => some acc
  | f :: rest =>
    match precomputeFeatureValue f sizeFeatureValues with
    | .unknown => none
    | v => precomputeLoop rest sizeFeatureValues (acc ++ [(f, v)])

/-- `evaluateContainerCondition` from evaluate.ts. -/
def evaluateContainerCondition (rule : ContainerRule) (context : EvalContext) :
    Option Bool :=
  match precomputeLoop rule.features context.sizeFeatures [] with
  | none => none
  | some sizeFeatures =>
    match evaluateExpressionToBoolean rule.condition
        { sizeFeatures, treeContext := context.treeContext } with
    | .boolean b => some b
    | _ => none

/-- `String.prototype.toLowerCase` restricted to ASCII (every string it
is applied to in this code is a CSS keyword, unit or at-rule name). -/
def jsToLower (s : String) : String :=
  String.mk (s.data.map fun c =>
    if 65 ≤ c.toNat ∧ c.toNat ≤ 90 then Char.ofNat (c.toNat + 32) else c)

/-! ### utils/css.ts : tokens, nodes, tokenizer -/

/-- `HashFlag` from utils/css.ts. -/
inductive HashFlag
  | UNRESTRICTED
  | ID
deriving DecidableEq, Repr

/-- `NumberFlag` from utils/css.ts. -/
inductive NumberFlag
  | INTEGER
  | NUMBER
deriving DecidableEq, Repr

/-- `BlockType` from utils/css.ts. -/
inductive BlockTag
  | simpleBlock
  | styleBlock
  | declarationList
  | ruleList
deriving DecidableEq, Repr, Inhabited

/-- `Node` from utils/css.ts: every token kind plus the five tree nodes.
A TS `BlockNode {source, value: Block {type, value}}` is flattened into
the `blockNode` constructor (opening token, block type, children); an
at-rule's nullable block is `Option Node` holding a `blockNode`. -/
inductive Node
  | eofToken
  | whitespaceToken
  | stringToken (value : String)
  | badStringToken
  | leftParenthesisToken
  | rightParenthesisToken
  | commaToken
  | colonToken
  | semicolonToken
  | leftSquareBracketToken
  | rightSquareBracketToken
  | leftCurlyBracketToken
  | rightCurlyBracketToken
  | delimToken (value : String)
  | hashToken (value : String) (flag : HashFlag)
  | dimensionToken (value : String) (flag : NumberFlag) (unit : String)
  | percentageToken (value : String)
  | numberToken (value : String) (flag : NumberFlag)
  | cdoToken
  | cdcToken
  | urlToken (value : String)
  | badURLToken
  | atKeywordToken (value : String)
  | functionToken (value : String)
  | identToken (value : String)
  | atRuleNode (name : String) (rulePrelude : List Node) (value : Option Node)
  | qualifiedRuleNode (rulePrelude : List Node) (value : Node)
  | functionNode (name : String) (value : List Node)
  | blockNode (source : Node) (btype : BlockTag) (value : List Node)
  | declarationNode (name : String) (value : List Node) (important : Bool)
deriving Repr, Inhabited

/-- A parsed block (`Block` of utils/css.ts): its type tag and children. -/
structure Blk where
  btype : BlockTag
  value : List Node
deriving Repr, Inhabited

/-- Code points are `Int` so the parser's `-1` EOF sentinel can be kept. -/
abbrev CodePoint := Int

/-- Character-level parser state (`createParser` over code points):
current index (starts at `-1`) and collected error indices. -/
structure TkState where
  cps : List CodePoint
  idx : Int
  errs : List Int
deriving Repr

/-- Element access with the `-1` (EOF) sentinel out of range. -/
def listAt (l : List CodePoint) (j : Int) : CodePoint :=
  if j < 0 then -1
  else
    match l.drop j.toNat with
    | [] => -1
    | c :: _ => c

/-- `parser.at(offset)` on code points. -/
def tkAt (s : TkState) (off : Int) : CodePoint :=
  listAt s.cps (s.idx + off)

/-- `parser.consume(count)` on code points; the current value is always
read back as `tkAt s 0`. -/
def tkConsume (s : TkState) (count : Int) : TkState :=
  { s with idx := s.idx + count }

/-- `parser.reconsume()` on code points. -/
def tkReconsume (s : TkState) : TkState :=
  { s with idx := s.idx - 1 }

/-- `parser.error()` on code points. -/
def tkError (s : TkState) : TkState :=
  { s with errs := s.errs ++ [s.idx] }

/-- `String.fromCodePoint` for a single (valid, non-EOF) code point. -/
def cpChar (c : CodePoint) : String :=
  if 0 ≤ c ∧ c.toNat < 0xd800 ∨ 0xe000 ≤ c ∧ c.toNat < 0x110000 then
    String.singleton (Char.ofNat c.toNat)
  else ""

/-- `getCurrentString()`. -/
def tkCurrentString (s : TkState) : String := cpChar (tkAt s 0)

/-- The tokenizer's input pre-processing loop: NUL and surrogates to
U+FFFD, plus the source's exact carriage-return flag handling. -/
def preprocess : List Char → Bool → List CodePoint
  | [], _ => []
  | c :: rest, prevCR =>
    let code : Int := c.toNat
    let pre : List CodePoint := if prevCR ∧ code ≠ 10 then [10] else []
    let prevCR' : Bool := if prevCR ∧ code ≠ 10 then false else prevCR
    if code = 0 ∨ (55296 ≤ code ∧ code ≤ 57343) then
      pre ++ 65533 :: preprocess rest prevCR'
    else if code = 13 then
      pre ++ preprocess rest true
    else
      pre ++ code :: preprocess rest prevCR'

/-- `isDigit`. -/
def isDigit (c : CodePoint) : Bool := 48 ≤ c ∧ c ≤ 57

/-- `isHexDigit`. -/
def isHexDigit (c : CodePoint) : Bool :=
  isDigit c ∨ (65 ≤ c ∧ c ≤ 70) ∨ (97 ≤ c ∧ c ≤ 102)

/-- `isNewline`. -/
def isNewline (c : CodePoint) : Bool := c = 10 ∨ c = 13 ∨ c = 12

/-- `isWhitespace`. -/
def isWhitespace (c : CodePoint) : Bool := isNewline c ∨ c = 9 ∨ c = 32

/-- `isIdentStart`. -/
def isIdentStart (c : CodePoint) : Bool :=
  (65 ≤ c ∧ c ≤ 90) ∨ (97 ≤ c ∧ c ≤ 122) ∨ 128 ≤ c ∨ c = 95

/-- `isValidEscape`. -/
def isValidEscape (c1 c2 : CodePoint) : Bool :=
  if c1 ≠ 92 then false else if isNewline c2 then false else true

/-- `isIdent`. -/
def isIdent (c : CodePoint) : Bool := isIdentStart c ∨ isDigit c ∨ c = 45

/-- `isNonPrintable`. -/
def isNonPrintable (c : CodePoint) : Bool :=
  (0 ≤ c ∧ c ≤ 8) ∨ c = 11 ∨ (14 ≤ c ∧ c ≤ 31) ∨ c = 127

/-- § 4.3.9: would the three code points start an ident sequence. -/
def isIdentSequence (c1 c2 c3 : CodePoint) : Bool :=
  if c1 = 45 then isIdentStart c2 ∨ c2 = 45 ∨ isValidEscape c2 c3
  else if isIdentStart c1 then true
  else false

/-- § 4.3.10: would the three code points start a number. -/
def isNumberStart (c1 c2 c3 : CodePoint) : Bool :=
  if c1 = 43 ∨ c1 = 45 then isDigit c2 ∨ (c2 = 46 ∧ isDigit c3)
  else if c1 = 46 ∧ isDigit c2 then true
  else isDigit c1

/-- § 4.3.2 `consumeWhitespace` (tokenizer). -/
def tkConsumeWhitespace (fuel : Nat) (s : TkState) : TkState :=
  match fuel with
  | 0 => s
  | fuel + 1 =>
    if isWhitespace (tkAt s 1) then tkConsumeWhitespace fuel (tkConsume s 1) else s

/-- § 4.3.2 `consumeComments` (the source checks `at(0)`/`at(1)` after an
unconditional consume, so `/**/` is mis-detected as unterminated). -/
def tkConsumeComments (fuel : Nat) (s : TkState) : TkState :=
  match fuel with
  | 0 => s
  | fuel + 1 =>
    if tkAt s 0 ≠ -1 then
      let s := tkConsume s 1
      if tkAt s 0 = 42 ∧ tkAt s 1 = 47 then tkConsume s 1
      else tkConsumeComments fuel s
    else tkError s

/-- The bounded hex-digit loop of § 4.3.7. -/
def tkHexLoop : Nat → List CodePoint → TkState → List CodePoint × TkState
  | 0, acc, s => (acc, s)
  | n + 1, acc, s =>
    let c := tkAt s 1
    if isHexDigit c then tkHexLoop n (acc ++ [c]) (tkConsume s 1) else (acc, s)

/-- § 4.3.7 `consumeEscapedCodePoint`: returns the unescaped string. -/
def tkConsumeEscapedCodePoint (s : TkState) : String × TkState :=
  let s := tkConsume s 1
  let code := tkAt s 0
  if isHexDigit code then
    let (hexDigits, s) := tkHexLoop 5 [code] s
    let s := if isWhitespace (tkAt s 1) then tkConsume s 1 else s
    let escapedCode : Int :=
      hexDigits.foldl (fun acc c =>
        acc * 16 +
          (if isDigit c then c - 48
           else if 65 ≤ c ∧ c ≤ 70 then c - 55
           else c - 87)) 0
    let escapedCode :=
      if escapedCode = 0 ∨ (55296 ≤ escapedCode ∧ escapedCode ≤ 57343) ∨
          escapedCode > 1114111 then
        (65533 : Int)
      else escapedCode
    (cpChar escapedCode, s)
  else if code = -1 then
    (cpChar 65533, tkError s)
  else
    (tkCurrentString s, s)

/-- § 4.3.11 `consumeIdentSequence`. -/
def tkConsumeIdentSequence (fuel : Nat) (value : String) (s : TkState) :
    String × TkState :=
  match fuel with
  | 0 => (value, s)
  | fuel + 1 =>
    let s := tkConsume s 1
    let code := tkAt s 0
    if isIdent code then
      tkConsumeIdentSequence fuel (value ++ tkCurrentString s) s
    else if isValidEscape (tkAt s 1) (tkAt s 2) then
      let (piece, s) := tkConsumeEscapedCodePoint s
      tkConsumeIdentSequence fuel (value ++ piece) s
    else
      (value, tkReconsume s)

/-- The `while (isDigit(at(1)))` loop of § 4.3.12. -/
def tkDigitLoop : Nat → String → TkState → String × TkState
  | 0, v, s => (v, s)
  | n + 1, v, s =>
    if isDigit (tkAt s 1) then
      let s := tkConsume s 1
      tkDigitLoop n (v ++ tkCurrentString s) s
    else (v, s)

/-- § 4.3.12 `consumeNumber`: raw text plus integer/number flag. -/
def tkConsumeNumber (fuel : Nat) (s : TkState) : (String × NumberFlag) × TkState :=
  let digitLoop := tkDigitLoop
  let c1 := tkAt s 1
  let (value, s) :=
    if c1 = 43 ∨ c1 = 45 then
      let s := tkConsume s 1
      (tkCurrentString s, s)
    else ("", s)
  let (value, s) := digitLoop fuel value s
  let (ty, value, s) :=
    if tkAt s 1 = 46 ∧ isDigit (tkAt s 2) then
      let s := tkConsume s 1
      let value := value ++ tkCurrentString s
      let (value, s) := digitLoop fuel value s
      (NumberFlag.NUMBER, value, s)
    else (NumberFlag.INTEGER, value, s)
  let c1 := tkAt s 1
  if c1 = 69 ∨ c1 = 101 then
    let c2 := tkAt s 2
    if isDigit c2 then
      let s := tkConsume s 1
      let value := value ++ tkCurrentString s
      let (value, s) := digitLoop fuel value s
      ((value, NumberFlag.NUMBER), s)
    else if c2 = 45 ∨ c2 = 43 then
      if isDigit (tkAt s 3) then
        let s := tkConsume s 1
        let value := value ++ tkCurrentString s
        let s := tkConsume s 1
        let value := value ++ tkCurrentString s
        let (value, s) := digitLoop fuel value s
        ((value, NumberFlag.NUMBER), s)
      else ((value, ty), s)
    else ((value, ty), s)
  else ((value, ty), s)

/-- § 4.3.14 `consumeBadUrl`. -/
def tkConsumeBadUrl (fuel : Nat) (s : TkState) : TkState :=
  match fuel with
  | 0 => s
  | fuel + 1 =>
    let s := tkConsume s 1
    let code := tkAt s 0
    if code = -1 then s
    else if isValidEscape code (tkAt s 1) then
      let (_, s) := tkConsumeEscapedCodePoint s
      tkConsumeBadUrl fuel s
    else tkConsumeBadUrl fuel s

/-- § 4.3.5 `consumeStringToken`. -/
def tkConsumeStringToken (fuel : Nat) (endCodePoint : CodePoint) (value : String)
    (s : TkState) : Node × TkState :=
  match fuel with
  | 0 => (.stringToken value, s)
  | fuel + 1 =>
    let s := tkConsume s 1
    let code := tkAt s 0
    if code = -1 ∨ code = endCodePoint then
      let s := if code = -1 then tkError s else s
      (.stringToken value, s)
    else if isNewline code then
      (.badStringToken, tkReconsume (tkError s))
    else if code = 92 then
      let nextCode := tkAt s 1
      if nextCode = -1 then
        tkConsumeStringToken fuel endCodePoint value s
      else if isNewline nextCode then
        tkConsumeStringToken fuel endCodePoint value (tkConsume s 1)
      else
        let (piece, s) := tkConsumeEscapedCodePoint s
        tkConsumeStringToken fuel endCodePoint (value ++ piece) s
    else
      tkConsumeStringToken fuel endCodePoint (value ++ tkCurrentString s) s

/-- The main loop of § 4.3.6 `consumeUrlToken`. -/
def tkConsumeUrlLoop (fuel : Nat) (value : String) (s : TkState) : Node × TkState :=
  match fuel with
  | 0 => (.urlToken value, s)
  | fuel + 1 =>
    let s := tkConsume s 1
    let code := tkAt s 0
    if code = 41 then
      (.urlToken value, s)
    else if code = -1 then
      (.urlToken value, tkError s)
    else if isWhitespace code then
      let s := tkConsumeWhitespace fuel s
      let c1 := tkAt s 1
      if c1 = 41 ∨ c1 = -1 then
        let s := tkConsume s 1
        let s := if code = -1 then tkError s else s
        (.urlToken value, s)
      else
        (.badURLToken, tkConsumeBadUrl fuel s)
    else if code = 34 ∨ code = 39 ∨ code = 40 ∨ isNonPrintable code then
      (.badURLToken, tkConsumeBadUrl fuel (tkError s))
    else if code = 92 then
      if isValidEscape code (tkAt s 1) then
        let (piece, s) := tkConsumeEscapedCodePoint s
        tkConsumeUrlLoop fuel (value ++ piece) s
      else
        (.badURLToken, tkError s)
    else
      tkConsumeUrlLoop fuel (value ++ tkCurrentString s) s

/-- § 4.3.6 `consumeUrlToken`: leading whitespace, then the loop. -/
def tkConsumeUrlToken (fuel : Nat) (s : TkState) : Node × TkState :=
  tkConsumeUrlLoop fuel "" (tkConsumeWhitespace fuel s)

/-- The `while (isWhitespace(at(1)) && isWhitespace(at(2)))` loop of
§ 4.3.4 (keeps one whitespace before a quoted url argument). -/
def tkWsPairs : Nat → TkState → TkState
  | 0, s => s
  | n + 1, s =>
    if isWhitespace (tkAt s 1) ∧ isWhitespace (tkAt s 2) then
      tkWsPairs n (tkConsume s 1)
    else s

/-- § 4.3.4 `consumeIdentLikeToken`. -/
def tkConsumeIdentLikeToken (fuel : Nat) (s : TkState) : Node × TkState :=
  let (value, s) := tkConsumeIdentSequence fuel "" s
  let c1 := tkAt s 1
  if jsToLower value = "url" ∧ c1 = 40 then
    let s := tkConsume s 1
    let s := tkWsPairs fuel s
    let c1 := tkAt s 1
    let c2 := tkAt s 2
    if c1 = 34 ∨ c1 = 39 then
      (.functionToken value, s)
    else if isWhitespace c1 ∧ (c2 = 34 ∨ c2 = 39) then
      (.functionToken value, s)
    else
      tkConsumeUrlToken fuel s
  else if c1 = 40 then
    (.functionToken value, tkConsume s 1)
  else
    (.identToken value, s)

/-- § 4.3.3 `consumeNumericToken`.  The source passes `(c1, at(1), at(2))`
to `isIdentSequence`, where `c1` was read as `at(1)`; that duplication is
kept as-is. -/
def tkConsumeNumericToken (fuel : Nat) (s : TkState) : Node × TkState :=
  let ((number, flag), s) := tkConsumeNumber fuel s
  let c1 := tkAt s 1
  if isIdentSequence c1 (tkAt s 1) (tkAt s 2) then
    let (unit, s) := tkConsumeIdentSequence fuel "" s
    (.dimensionToken number flag unit, s)
  else if c1 = 37 then
    (.percentageToken number, tkConsume s 1)
  else
    (.numberToken number flag, s)

/-- `consumeHashToken`. -/
def tkConsumeHashToken (fuel : Nat) (s : TkState) : Node × TkState :=
  let flag :=
    if isIdentSequence (tkAt s 1) (tkAt s 2) (tkAt s 3) then HashFlag.ID
    else HashFlag.UNRESTRICTED
  let (value, s) := tkConsumeIdentSequence fuel "" s
  (.hashToken value flag, s)

/-- `consumeDelimToken`. -/
def tkConsumeDelimToken (s : TkState) : Node := .delimToken (tkCurrentString s)

/-- The tokenizer's main generator loop; the list of yielded tokens is
accumulated.  The lone-backslash branch ends the generator by `return`ing
(not yielding) a delim token, so the stream ends without an EOF token. -/
def tokenizeLoop (fuel : Nat) (s : TkState) (acc : List Node) : List Node :=
  match fuel with
  | 0 => acc
  | fuel + 1 =>
    let s := tkConsume s 1
    let code := tkAt s 0
    if code = 47 ∧ tkAt s 1 = 42 then
      tokenizeLoop fuel (tkConsumeComments fuel (tkConsume s 2)) acc
    else if isWhitespace code then
      tokenizeLoop fuel (tkConsumeWhitespace fuel s) (acc ++ [.whitespaceToken])
    else if code = 34 then
      let (t, s) := tkConsumeStringToken fuel code "" s
      tokenizeLoop fuel s (acc ++ [t])
    else if code = 35 then
      let c1 := tkAt s 1
      if isIdent c1 ∨ isValidEscape c1 (tkAt s 2) then
        let (t, s) := tkConsumeHashToken fuel s
        tokenizeLoop fuel s (acc ++ [t])
      else
        tokenizeLoop fuel s (acc ++ [tkConsumeDelimToken s])
    else if code = 39 then
      let (t, s) := tkConsumeStringToken fuel code "" s
      tokenizeLoop fuel s (acc ++ [t])
    else if code = 40 then
      tokenizeLoop fuel s (acc ++ [.leftParenthesisToken])
    else if code = 41 then
      tokenizeLoop fuel s (acc ++ [.rightParenthesisToken])
    else if code = 43 then
      if isNumberStart code (tkAt s 1) (tkAt s 2) then
        let (t, s) := tkConsumeNumericToken fuel (tkReconsume s)
        tokenizeLoop fuel s (acc ++ [t])
      else
        tokenizeLoop fuel s (acc ++ [tkConsumeDelimToken s])
    else if code = 44 then
      tokenizeLoop fuel s (acc ++ [.commaToken])
    else if code = 45 then
      let c1 := tkAt s 1
      let c2 := tkAt s 2
      if isNumberStart code c1 c2 then
        let (t, s) := tkConsumeNumericToken fuel (tkReconsume s)
        tokenizeLoop fuel s (acc ++ [t])
      else if c1 = 45 ∧ c2 = 62 then
        tokenizeLoop fuel (tkConsume s 2) (acc ++ [.cdcToken])
      else if isIdentSequence code c1 c2 then
        let (t, s) := tkConsumeIdentLikeToken fuel (tkReconsume s)
        tokenizeLoop fuel s (acc ++ [t])
      else
        tokenizeLoop fuel s (acc ++ [tkConsumeDelimToken s])
    else if code = 46 then
      if isNumberStart code (tkAt s 1) (tkAt s 2) then
        let (t, s) := tkConsumeNumericToken fuel (tkReconsume s)
        tokenizeLoop fuel s (acc ++ [t])
      else
        tokenizeLoop fuel s (acc ++ [tkConsumeDelimToken s])
    else if code = 58 then
      tokenizeLoop fuel s (acc ++ [.colonToken])
    else if code = 59 then
      tokenizeLoop fuel s (acc ++ [.semicolonToken])
    else if code = 60 then
      if tkAt s 1 = 33 ∧ tkAt s 2 = 45 ∧ tkAt s 3 = 45 then
        tokenizeLoop fuel s (acc ++ [.cdoToken])
      else
        tokenizeLoop fuel s (acc ++ [tkConsumeDelimToken s])
    else if code = 64 then
      if isIdentSequence (tkAt s 1) (tkAt s 2) (tkAt s 3) then
        let (value, s) := tkConsumeIdentSequence fuel "" s
        tokenizeLoop fuel s (acc ++ [.atKeywordToken value])
      else
        tokenizeLoop fuel s (acc ++ [tkConsumeDelimToken s])
    else if code = 91 then
      tokenizeLoop fuel s (acc ++ [.leftSquareBracketToken])
    else if code = 92 then
      if isValidEscape code (tkAt s 1) then
        let (t, s) := tkConsumeIdentLikeToken fuel (tkReconsume s)
        tokenizeLoop fuel s (acc ++ [t])
      else
        -- `return consumeDelimToken()`: the generator ends; the returned
        -- token is not part of the yielded stream and no EOF is emitted.
        acc
    else if code = 93 then
      tokenizeLoop fuel s (acc ++ [.rightSquareBracketToken])
    else if code = 123 then
      tokenizeLoop fuel s (acc ++ [.leftCurlyBracketToken])
    else if code = 125 then
      tokenizeLoop fuel s (acc ++ [.rightCurlyBracketToken])
    else if isDigit code then
      let (t, s) := tkConsumeNumericToken fuel (tkReconsume s)
      tokenizeLoop fuel s (acc ++ [t])
    else if isIdentStart code then
      let (t, s) := tkConsumeIdentLikeToken fuel (tkReconsume s)
      tokenizeLoop fuel s (acc ++ [t])
    else if code = -1 then
      acc ++ [.eofToken]
    else
      tokenizeLoop fuel s (acc ++ [.delimToken (tkCurrentString s)])

/-- `tokenize` from utils/css.ts: pre-process then run the main loop.
The internal fuel is generous enough for any input that terminates. -/
def tokenize (source : String) : List Node :=
  let cps := preprocess source.toList false
  tokenizeLoop (8 * cps.length + 64) { cps := cps, idx := -1, errs := [] } []

/-! ### utils/css.ts : serializer -/

/-- `BLOCK_MAP`: opening token to bracket pair. -/
def blockMap : Node → Option (String × String)
  | .leftCurlyBracketToken => some ("\x7b", "\x7d")
  | .leftSquareBracketToken => some ("[", "]")
  | .leftParenthesisToken => some ("(", ")")
  | _ => none

mutual

/-- `serializeInternal` from utils/css.ts; unsupported tokens throw. -/
def serializeInternal (node : Node) (level : Nat) : Except JsError String :=
  match node with
  | .atRuleNode name rulePrelude value => do
    let p ← serializeList rulePrelude
    let v ← match value with
      | some v => serializeInternal v level
      | none => pure ""
    pure ("@" ++ name ++ " " ++ p ++ v)
  | .qualifiedRuleNode rulePrelude value => do
    let p ← serializeList rulePrelude
    let v ← serializeInternal value level
    pure (p ++ v)
  | .blockNode source btype value =>
    match blockMap source with
    | none => throw "TypeError: BLOCK_MAP[node.source.type] is undefined"
    | some (startStr, endStr) => do
      let inner ← serializeBlockList btype value level
      pure (startStr ++ inner ++ endStr)
  | .functionNode name value => do
    let inner ← serializeList value
    pure (name ++ "(" ++ inner ++ ")")
  | .declarationNode name value important => do
    let inner ← serializeList value
    pure (name ++ ":" ++ inner ++ (if important then " !important" else ""))
  | .whitespaceToken => pure " "
  | .semicolonToken => pure ";"
  | .colonToken => pure ":"
  | .hashToken value _ => pure ("#" ++ value)
  | .identToken value => pure value
  | .dimensionToken value _ unit => pure (value ++ unit)
  | .delimToken value => pure value
  | .numberToken value _ => pure value
  | .stringToken value => pure ("\"" ++ value ++ "\"")
  | .commaToken => pure ","
  | .urlToken value => pure ("url(" ++ value ++ ")")
  | .atKeywordToken value => pure ("@" ++ value)
  | .percentageToken value => pure (value ++ "%")
  | _ => throw "Unsupported token"

/-- `.map(n => serializeInternal(n, 0)).join('')`. -/
def serializeList (nodes : List Node) : Except JsError String :=
  match nodes with
  | [] => pure ""
  | n :: rest => do
    let s ← serializeInternal n 0
    let r ← serializeList rest
    pure (s ++ r)

/-- `serializeBlock`'s member loop: `;` is appended after declarations
unless the block is a simple block. -/
def serializeBlockList (btype : BlockTag) (nodes : List Node) (level : Nat) :
    Except JsError String :=
  match nodes with
  | [] => pure ""
  | n :: rest => do
    let s ← serializeInternal n level
    let s := if (n matches .declarationNode _ _ _) ∧ btype ≠ .simpleBlock
      then s ++ ";" else s
    let r ← serializeBlockList btype rest level
    pure (s ++ r)

end

/-- `serializeBlock` from utils/css.ts (the optional level defaults to 0). -/
def serializeBlock (block : Blk) (level : Nat) : Except JsError String :=
  serializeBlockList block.btype block.value level

/-- `serialize` from utils/css.ts. -/
def serialize (node : Node) : Except JsError String :=
  serializeInternal node 0

/-! ### utils/css.ts : block and rule parser (§ 5.3 / § 5.4) -/

/-- Node-level parser state (`createNodeParser`). -/
structure NP where
  nodes : List Node
  idx : Int
  errs : List Int
deriving Repr

/-- `createNodeParser`. -/
def npCreate (nodes : List Node) : NP := { nodes, idx := -1, errs := [] }

/-- `parser.at(offset)`: out-of-range yields the EOF sentinel. -/
def npAt (p : NP) (off : Int) : Node :=
  let j := p.idx + off
  if j < 0 then .eofToken
  else
    match p.nodes.drop j.toNat with
    | [] => .eofToken
    | n :: _ => n

/-- `parser.consume(count)`. -/
def npConsume (p : NP) (count : Int) : NP := { p with idx := p.idx + count }

/-- `parser.reconsume()`. -/
def npReconsume (p : NP) : NP := { p with idx := p.idx - 1 }

/-- `parser.error()`. -/
def npError (p : NP) : NP := { p with errs := p.errs ++ [p.idx] }

/-- `consumeWhitespace` (node level) from utils/css.ts. -/
def npConsumeWhitespace (fuel : Nat) (p : NP) : NP :=
  match fuel with
  | 0 => p
  | fuel + 1 =>
    if npAt p 1 matches .whitespaceToken then npConsumeWhitespace fuel (npConsume p 1)
    else p

/-- `isEOF` from utils/css.ts. -/
def npIsEOF (fuel : Nat) (p : NP) : Bool × NP :=
  let p := npConsumeWhitespace fuel p
  (npAt p 1 matches .eofToken, p)

/-- Does `node.type` equal `ENDING_TOKEN_MAP[source.type]`. -/
def matchesEndToken (source node : Node) : Bool :=
  match source, node with
  | .leftCurlyBracketToken, .rightCurlyBracketToken => true
  | .leftSquareBracketToken, .rightSquareBracketToken => true
  | .leftParenthesisToken, .rightParenthesisToken => true
  | _, _ => false

/-- Message used when the embedding runs out of fuel. -/
def fuelMsg : JsError := "model: out of fuel"

mutual

/-- § 5.4.7 `consumeComponentValue`. -/
def consumeComponentValue (fuel : Nat) (p : NP) : Except JsError (Node × NP) :=
  match fuel with
  | 0 => throw fuelMsg
  | fuel + 1 =>
    let p := npConsume p 1
    match npAt p 0 with
    | .leftCurlyBracketToken => consumeSimpleBlock fuel p
    | .leftSquareBracketToken => consumeSimpleBlock fuel p
    | .leftParenthesisToken => consumeSimpleBlock fuel p
    | .functionToken _ => consumeFunction fuel p
    | node => pure (node, p)

/-- § 5.4.8 `consumeSimpleBlock` (entered with the opening token current). -/
def consumeSimpleBlock (fuel : Nat) (p : NP) : Except JsError (Node × NP) :=
  match fuel with
  | 0 => throw fuelMsg
  | fuel + 1 =>
    let source := npAt p 0
    if blockMap source = none then throw "Unexpected type"
    else consumeSimpleBlockLoop fuel source [] p

/-- The member loop of § 5.4.8. -/
def consumeSimpleBlockLoop (fuel : Nat) (source : Node) (value : List Node)
    (p : NP) : Except JsError (Node × NP) :=
  match fuel with
  | 0 => throw fuelMsg
  | fuel + 1 =>
    let p := npConsume p 1
    let node := npAt p 0
    if matchesEndToken source node then
      pure (.blockNode source .simpleBlock value, p)
    else if node matches .eofToken then
      pure (.blockNode source .simpleBlock value, npError p)
    else do
      let (v, p) ← consumeComponentValue fuel (npReconsume p)
      consumeSimpleBlockLoop fuel source (value ++ [v]) p

/-- § 5.4.9 `consumeFunction` (entered with the function token current). -/
def consumeFunction (fuel : Nat) (p : NP) : Except JsError (Node × NP) :=
  match fuel with
  | 0 => throw fuelMsg
  | fuel + 1 =>
    match npAt p 0 with
    | .functionToken name => consumeFunctionLoop fuel name [] p
    | _ => throw "Unexpected type"

/-- The member loop of § 5.4.9. -/
def consumeFunctionLoop (fuel : Nat) (name : String) (value : List Node)
    (p : NP) : Except JsError (Node × NP) :=
  match fuel with
  | 0 => throw fuelMsg
  | fuel + 1 =>
    let p := npConsume p 1
    match npAt p 0 with
    | .rightParenthesisToken => pure (.functionNode name value, p)
    | .eofToken => pure (.functionNode name value, npError p)
    | _ => do
      let (v, p) ← consumeComponentValue fuel (npReconsume p)
      consumeFunctionLoop fuel name (value ++ [v]) p

end

/-- The `while (parser.at(1).type !== X)` component-value collection loop
shared by declaration parsing and list recovery. -/
def collectUntilSemicolonOrEof (fuel : Nat) (acc : List Node) (p : NP) :
    Except JsError (List Node × NP) :=
  match fuel with
  | 0 => throw fuelMsg
  | fuel + 1 =>
    match npAt p 1 with
    | .semicolonToken => pure (acc, p)
    | .eofToken => pure (acc, p)
    | _ => do
      let (v, p) ← consumeComponentValue fuel p
      collectUntilSemicolonOrEof fuel (acc ++ [v]) p

/-- The declaration-value loop of § 5.4.6 (consume until EOF). -/
def consumeDeclarationValues (fuel : Nat) (acc : List Node) (p : NP) :
    Except JsError (List Node × NP) :=
  match fuel with
  | 0 => throw fuelMsg
  | fuel + 1 =>
    match npAt p 1 with
    | .eofToken => pure (acc, p)
    | _ => do
      let (v, p) ← consumeComponentValue fuel p
      consumeDeclarationValues fuel (acc ++ [v]) p

/-- § 5.4.6 `consumeDeclaration`.  `PARSE_ERROR` is `none`.  The
`!important` check inspects the literal last two children of the value
list (whitespace tokens included). -/
def consumeDeclaration (fuel : Nat) (p : NP) : Except JsError (Option Node × NP) :=
  match fuel with
  | 0 => throw fuelMsg
  | fuel + 1 => do
    let p := npConsume p 1
    match npAt p 0 with
    | .identToken name => do
      let p := npConsumeWhitespace fuel p
      if npAt p 1 matches .colonToken then do
        let p := npConsume p 1
        let p := npConsumeWhitespace fuel p
        let (value, p) ← consumeDeclarationValues fuel [] p
        let secondToLastValue := value.drop (value.length - 2) |>.head?
        let lastValue := value.getLast?
        let isImportant :=
          match secondToLastValue, lastValue with
          | some (.delimToken d), some (.identToken i) =>
            decide (d = "!" ∧ jsToLower i = "important")
          | _, _ => false
        let (value, important) :=
          if isImportant then (value.take (value.length - 2), true) else (value, false)
        pure (some (.declarationNode name value important), p)
      else
        pure (none, npError p)
    | _ => throw "Unexpected type"

/-- § 5.4.2 `consumeAtRule`'s prelude loop. -/
def consumeAtRuleLoop (fuel : Nat) (name : String) (rulePrelude : List Node)
    (p : NP) : Except JsError (Node × NP) :=
  match fuel with
  | 0 => throw fuelMsg
  | fuel + 1 =>
    let p := npConsume p 1
    match npAt p 0 with
    | .semicolonToken => pure (.atRuleNode name rulePrelude none, p)
    | .eofToken => pure (.atRuleNode name rulePrelude none, npError p)
    | .leftCurlyBracketToken => do
      let (blk, p) ← consumeSimpleBlock fuel p
      pure (.atRuleNode name rulePrelude (some blk), p)
    | .blockNode source btype value =>
      if source matches .leftCurlyBracketToken then
        pure (.atRuleNode name rulePrelude (some (.blockNode source btype value)), p)
      else do
        let (v, p) ← consumeComponentValue fuel (npReconsume p)
        consumeAtRuleLoop fuel name (rulePrelude ++ [v]) p
    | _ => do
      let (v, p) ← consumeComponentValue fuel (npReconsume p)
      consumeAtRuleLoop fuel name (rulePrelude ++ [v]) p

/-- § 5.4.2 `consumeAtRule`. -/
def consumeAtRule (fuel : Nat) (p : NP) : Except JsError (Node × NP) :=
  match fuel with
  | 0 => throw fuelMsg
  | fuel + 1 =>
    let p := npConsume p 1
    match npAt p 0 with
    | .atKeywordToken name => consumeAtRuleLoop fuel name [] p
    | _ => throw "Unexpected type"

/-- § 5.4.3 `consumeQualifiedRule`'s prelude loop; `none` is `PARSE_ERROR`. -/
def consumeQualifiedRuleLoop (fuel : Nat) (rulePrelude : List Node) (p : NP) :
    Except JsError (Option Node × NP) :=
  match fuel with
  | 0 => throw fuelMsg
  | fuel + 1 =>
    let p := npConsume p 1
    match npAt p 0 with
    | .eofToken => pure (none, npError p)
    | .leftCurlyBracketToken => do
      let (blk, p) ← consumeSimpleBlock fuel p
      pure (some (.qualifiedRuleNode rulePrelude blk), p)
    | .blockNode source btype value =>
      if source matches .leftCurlyBracketToken then
        pure (some (.qualifiedRuleNode rulePrelude (.blockNode source btype value)), p)
      else do
        let (v, p) ← consumeComponentValue fuel (npReconsume p)
        consumeQualifiedRuleLoop fuel (rulePrelude ++ [v]) p
    | _ => do
      let (v, p) ← consumeComponentValue fuel (npReconsume p)
      consumeQualifiedRuleLoop fuel (rulePrelude ++ [v]) p

/-- § 5.4.3 `consumeQualifiedRule`. -/
def consumeQualifiedRule (fuel : Nat) (p : NP) : Except JsError (Option Node × NP) :=
  consumeQualifiedRuleLoop fuel [] p

/-- § 5.4.4 `consumeStyleBlock`'s main loop (declarations and rules are
collected separately and concatenated at EOF). -/
def consumeStyleBlockLoop (fuel : Nat) (rules declarations : List Node) (p : NP) :
    Except JsError (Blk × NP) :=
  match fuel with
  | 0 => throw fuelMsg
  | fuel + 1 =>
    let p := npConsume p 1
    match npAt p 0 with
    | .whitespaceToken => consumeStyleBlockLoop fuel rules declarations p
    | .semicolonToken => consumeStyleBlockLoop fuel rules declarations p
    | .eofToken => pure (⟨.styleBlock, declarations ++ rules⟩, p)
    | .atKeywordToken _ => do
      let (r, p) ← consumeAtRule fuel (npReconsume p)
      consumeStyleBlockLoop fuel (rules ++ [r]) declarations p
    | .identToken i => do
      let (temp, p) ← collectUntilSemicolonOrEof fuel [.identToken i] p
      let (declaration, _) ← consumeDeclaration fuel (npCreate temp)
      match declaration with
      | some d => consumeStyleBlockLoop fuel rules (declarations ++ [d]) p
      | none => consumeStyleBlockLoop fuel rules declarations p
    | .delimToken d =>
      if d = "&" then do
        let (rule, p) ← consumeQualifiedRule fuel (npReconsume p)
        match rule with
        | some r => consumeStyleBlockLoop fuel (rules ++ [r]) declarations p
        | none => consumeStyleBlockLoop fuel rules declarations p
      else do
        let p := npError p
        let (_, p) ← collectUntilSemicolonOrEof fuel [] (npReconsume p)
        consumeStyleBlockLoop fuel rules declarations p
    | _ => do
      let p := npError p
      let (_, p) ← collectUntilSemicolonOrEof fuel [] (npReconsume p)
      consumeStyleBlockLoop fuel rules declarations p

/-- § 5.4.4 `consumeStyleBlock`. -/
def consumeStyleBlock (fuel : Nat) (p : NP) : Except JsError (Blk × NP) :=
  consumeStyleBlockLoop fuel [] [] p

/-- § 5.4.5 `consumeDeclarationList`'s main loop (at-rules and
declarations share one array). -/
def consumeDeclarationListLoop (fuel : Nat) (declarations : List Node) (p : NP) :
    Except JsError (Blk × NP) :=
  match fuel with
  | 0 => throw fuelMsg
  | fuel + 1 =>
    let p := npConsume p 1
    match npAt p 0 with
    | .whitespaceToken => consumeDeclarationListLoop fuel declarations p
    | .semicolonToken => consumeDeclarationListLoop fuel declarations p
    | .eofToken => pure (⟨.declarationList, declarations⟩, p)
    | .atKeywordToken _ => do
      let (r, p) ← consumeAtRule fuel (npReconsume p)
      consumeDeclarationListLoop fuel (declarations ++ [r]) p
    | .identToken i => do
      let (temp, p) ← collectUntilSemicolonOrEof fuel [.identToken i] p
      let (declaration, _) ← consumeDeclaration fuel (npCreate temp)
      match declaration with
      | some d => consumeDeclarationListLoop fuel (declarations ++ [d]) p
      | none => consumeDeclarationListLoop fuel declarations p
    | _ => do
      let p := npError p
      let (_, p) ← collectUntilSemicolonOrEof fuel [] (npReconsume p)
      consumeDeclarationListLoop fuel declarations p

/-- § 5.4.5 `consumeDeclarationList` (parse a list of declarations). -/
def consumeDeclarationList (fuel : Nat) (p : NP) : Except JsError (Blk × NP) :=
  consumeDeclarationListLoop fuel [] p

/-- § 5.4.1 `consumeRuleList`'s main loop.  Note the source's CDO/CDC
branch runs when `topLevel` is *true* (`topLevel !== false`). -/
def consumeRuleListLoop (fuel : Nat) (topLevel : Bool) (rules : List Node) (p : NP) :
    Except JsError (Blk × NP) :=
  match fuel with
  | 0 => throw fuelMsg
  | fuel + 1 =>
    let p := npConsume p 1
    match npAt p 0 with
    | .whitespaceToken => consumeRuleListLoop fuel topLevel rules p
    | .eofToken => pure (⟨.ruleList, rules⟩, p)
    | .cdoToken =>
      if topLevel then do
        let (rule, p) ← consumeQualifiedRule fuel (npReconsume p)
        match rule with
        | some r => consumeRuleListLoop fuel topLevel (rules ++ [r]) p
        | none => consumeRuleListLoop fuel topLevel rules p
      else consumeRuleListLoop fuel topLevel rules p
    | .cdcToken =>
      if topLevel then do
        let (rule, p) ← consumeQualifiedRule fuel (npReconsume p)
        match rule with
        | some r => consumeRuleListLoop fuel topLevel (rules ++ [r]) p
        | none => consumeRuleListLoop fuel topLevel rules p
      else consumeRuleListLoop fuel topLevel rules p
    | .atKeywordToken _ => do
      let (r, p) ← consumeAtRule fuel (npReconsume p)
      consumeRuleListLoop fuel topLevel (rules ++ [r]) p
    | _ => do
      let (rule, p) ← consumeQualifiedRule fuel (npReconsume p)
      match rule with
      | some r => consumeRuleListLoop fuel topLevel (rules ++ [r]) p
      | none => consumeRuleListLoop fuel topLevel rules p

/-- § 5.4.1 `consumeRuleList`. -/
def consumeRuleList (fuel : Nat) (p : NP) (topLevel : Bool) :
    Except JsError (Blk × NP) :=
  consumeRuleListLoop fuel topLevel [] p

/-- `reinterpretQualifiedRule` from utils/css.ts. -/
def reinterpretQualifiedRule (node : Node) (callback : List Node → Except JsError Blk) :
    Except JsError Node :=
  match node with
  | .qualifiedRuleNode rulePrelude (.blockNode source .simpleBlock inner) => do
    let blk ← callback inner
    pure (.qualifiedRuleNode rulePrelude (.blockNode source blk.btype blk.value))
  | _ => pure node

/-- § 5.3.7 `parseStyleBlock`. -/
def parseStyleBlock (fuel : Nat) (nodes : List Node) : Except JsError Blk := do
  let (blk, _) ← consumeStyleBlock fuel (npCreate nodes)
  pure blk

/-- § 5.3.3 `parseStylesheet` (the optional `topLevel` is `none` when
omitted; qualified rules are re-parsed as style blocks). -/
def parseStylesheet (fuel : Nat) (nodes : List Node) (topLevel : Option Bool) :
    Except JsError Blk := do
  let (node, _) ← consumeRuleList fuel (npCreate nodes) (topLevel = some true)
  let value ← node.value.mapM fun rule =>
    match rule with
    | .qualifiedRuleNode a b =>
      reinterpretQualifiedRule (.qualifiedRuleNode a b) (parseStyleBlock fuel)
    | r => pure r
  pure { node with value }

/-- § 5.3.6 `parseDeclaration`. -/
def parseDeclaration (fuel : Nat) (nodes : List Node) :
    Except JsError (Option Node) :=
  let p := npCreate nodes
  let p := npConsumeWhitespace fuel p
  if npAt p 1 matches .identToken _ then do
    let (d, _) ← consumeDeclaration fuel p
    pure d
  else
    pure none

/-- § 5.3.8 `parseDeclarationList`. -/
def parseDeclarationList (fuel : Nat) (nodes : List Node) : Except JsError Blk := do
  let (blk, _) ← consumeDeclarationList fuel (npCreate nodes)
  pure blk

/-- `parseComponentValue` from utils/css.ts. -/
def parseComponentValueLoop (fuel : Nat) (acc : List Node) (p : NP) :
    Except JsError (List Node) :=
  match fuel with
  | 0 => throw fuelMsg
  | fuel + 1 =>
    let p' := npConsume p 1
    match npAt p' 0 with
    | .eofToken => pure acc
    | _ => do
      let (v, p) ← consumeComponentValue fuel (npReconsume p')
      parseComponentValueLoop fuel (acc ++ [v]) p

/-- `parseComponentValue` from utils/css.ts. -/
def parseComponentValue (fuel : Nat) (nodes : List Node) :
    Except JsError (List Node) :=
  parseComponentValueLoop fuel [] (npCreate nodes)

/-! ### utils/ast.ts : node construction helpers -/

/-- `ws()` from utils/ast.ts. -/
def ws : Node := .whitespaceToken

/-- `delim(value)` from utils/ast.ts. -/
def delim (value : String) : Node := .delimToken value

/-- `decl(name, value)` from utils/ast.ts. -/
def decl (name : String) (value : List Node) : Node :=
  .declarationNode name value false

/-- `ident(value)` from utils/ast.ts. -/
def ident (value : String) : Node := .identToken value

/-- `func(name, value)` from utils/ast.ts. -/
def func (name : String) (value : List Node) : Node := .functionNode name value

/-- `customVar(name)` from utils/ast.ts. -/
def customVar (name : String) : Node := func "var" [ident name]

/-! ### utils/parse-media-feature.ts -/

/-- A range bound: comparison operator and raw value chunk. -/
abbrev Bound := ComparisonOperator × List Node

/-- `BooleanFeatureNode | RangeFeatureNode`. -/
inductive FeatureNode
  | boolean (feature : String)
  | range (feature : String) (bounds : Option Bound × Option Bound)
deriving Repr

/-- `tryConsumeEqualsDelim`. -/
def tryConsumeEqualsDelim (p : NP) : Bool × NP :=
  match npAt p 1 with
  | .delimToken "=" => (true, npConsume p 1)
  | _ => (false, p)

/-- `consumeUntilOperatorDelim`. -/
def consumeUntilOperatorDelim (fuel : Nat) (includeColon : Bool)
    (acc : List Node) (p : NP) : List Node × NP :=
  match fuel with
  | 0 => (acc, p)
  | fuel + 1 =>
    let next := npAt p 1
    let stop :=
      match next with
      | .eofToken => true
      | .colonToken => includeColon
      | .delimToken d => d = ">" ∨ d = "<" ∨ d = "="
      | _ => false
    if stop then (acc, p)
    else
      let p := npConsume p 1
      consumeUntilOperatorDelim fuel includeColon (acc ++ [npAt p 0]) p

/-- `consumeComparisonOperator` (`null` on failure). -/
def consumeComparisonOperator (fuel : Nat) (p : NP) :
    Option ComparisonOperator × NP :=
  let p := npConsumeWhitespace fuel p
  let p := npConsume p 1
  match npAt p 0 with
  | .delimToken ">" =>
    let (eq, p) := tryConsumeEqualsDelim p
    (some (if eq then .GREATER_THAN_EQUAL else .GREATER_THAN), p)
  | .delimToken "<" =>
    let (eq, p) := tryConsumeEqualsDelim p
    (some (if eq then .LESS_THAN_EQUAL else .LESS_THAN), p)
  | .delimToken "=" => (some .EQUAL, p)
  | _ => (none, p)

/-- `isLessThan`. -/
def isLessThanOp (operator : ComparisonOperator) : Bool :=
  operator matches .LESS_THAN ∨ operator matches .LESS_THAN_EQUAL

/-- `isGreaterThan`. -/
def isGreaterThanOp (operator : ComparisonOperator) : Bool :=
  operator matches .GREATER_THAN ∨ operator matches .GREATER_THAN_EQUAL

/-- `consumeStandaloneIdent` (`null` on failure). -/
def consumeStandaloneIdent (fuel : Nat) (p : NP) : Option String × NP :=
  let p := npConsumeWhitespace fuel p
  let p := npConsume p 1
  let node := npAt p 0
  let p := npConsumeWhitespace fuel p
  match node with
  | .identToken v =>
    if npAt p 1 matches .eofToken then (some v, p) else (none, p)
  | _ => (none, p)

/-- `startsWith` on strings, by character list. -/
def strStartsWith (s pre : String) : Bool := pre.data.isPrefixOf s.data

/-- `substring(n)` on strings, by character list. -/
def strDropChars (s : String) (n : Nat) : String := String.mk (s.data.drop n)

/-- `tryGetFeatureName` without a transform. -/
def tryGetFeatureName (fuel : Nat) (chunk : List Node) (features : List String) :
    Option String :=
  let (maybeIdent, _) := consumeStandaloneIdent fuel (npCreate chunk)
  match maybeIdent with
  | none => none
  | some i =>
    let feature := jsToLower i
    if features.contains feature then some feature else none

/-- `tryGetFeatureName` with the plain-form `min-`/`max-` transform of
`consumeMediaFeature` (the closure's `operator` assignment is returned
alongside the stripped name). -/
def tryGetFeatureNameMinMax (fuel : Nat) (chunk : List Node)
    (features : List String) : Option (String × ComparisonOperator) :=
  let (maybeIdent, _) := consumeStandaloneIdent fuel (npCreate chunk)
  match maybeIdent with
  | none => none
  | some i =>
    let raw := jsToLower i
    let (feature, operator) :=
      if strStartsWith raw "min-" then (strDropChars raw 4, ComparisonOperator.GREATER_THAN_EQUAL)
      else if strStartsWith raw "max-" then (strDropChars raw 4, ComparisonOperator.LESS_THAN_EQUAL)
      else (raw, ComparisonOperator.EQUAL)
    if features.contains feature then some (feature, operator) else none

/-- `consumeMediaFeature` from utils/parse-media-feature.ts; returns
`null` (not the `PARSE_ERROR` sentinel) on failure. -/
def consumeMediaFeature (fuel : Nat) (p : NP) (features : List String) :
    Option FeatureNode × NP :=
  let (firstChunk, p) := consumeUntilOperatorDelim fuel true [] p
  match npAt p 1 with
  | .eofToken =>
    (match tryGetFeatureName fuel firstChunk features with
     | some feature => some (.boolean feature)
     | none => none, p)
  | .colonToken =>
    let p := npConsume p 1
    let (value, p) := consumeUntilOperatorDelim fuel false [] p
    (match tryGetFeatureNameMinMax fuel firstChunk features with
     | some (feature, operator) =>
       some (.range feature (none, some (operator, value)))
     | none => none, p)
  | _ =>
    let (firstOperator, p) := consumeComparisonOperator fuel p
    match firstOperator with
    | none => (none, p)
    | some firstOperator =>
      let (secondChunk, p) := consumeUntilOperatorDelim fuel false [] p
      if npAt p 1 matches .eofToken then
        match tryGetFeatureName fuel firstChunk features with
        | some feature =>
          (some (.range feature (none, some (firstOperator, secondChunk))), p)
        | none =>
          match tryGetFeatureName fuel secondChunk features with
          | some feature =>
            (some (.range feature (some (firstOperator, firstChunk), none)), p)
          | none => (none, p)
      else
        let (secondOperator, p) := consumeComparisonOperator fuel p
        match secondOperator with
        | none => (none, p)
        | some secondOperator =>
          if ¬((isGreaterThanOp firstOperator ∧ isGreaterThanOp secondOperator) ∨
               (isLessThanOp firstOperator ∧ isLessThanOp secondOperator)) then
            (none, p)
          else
            let (thirdChunk, p) := consumeUntilOperatorDelim fuel false [] p
            match tryGetFeatureName fuel secondChunk features with
            | some feature =>
              (some (.range feature
                (some (firstOperator, firstChunk), some (secondOperator, thirdChunk))), p)
            | none => (none, p)

/-! ### utils/parse-media-query.ts -/

/-- `GenericExpressionNode`. -/
inductive GenericExpressionNode
  | negate (value : GenericExpressionNode)
  | conjunction (left right : GenericExpressionNode)
  | disjunction (left right : GenericExpressionNode)
  | literal (value : Node)
deriving Repr

mutual

/-- `parseQueryCondition` from utils/parse-media-query.ts
(`none` = `PARSE_ERROR`). -/
def parseQueryCondition (fuel : Nat) (p : NP) (andOr : Option String) :
    Except JsError (Option GenericExpressionNode × NP) :=
  match fuel with
  | 0 => throw fuelMsg
  | fuel + 1 => do
    let p := npConsumeWhitespace fuel p
    let (negated, bail, p) :=
      match npAt p 1 with
      | .identToken i =>
        if jsToLower i ≠ "not" then (false, true, p)
        else (true, false, npConsumeWhitespace fuel (npConsume p 1))
      | _ => (false, false, p)
    if bail then pure (none, p)
    else do
      let (left, p) ← parseQueryInParens fuel p
      match left with
      | none => pure (none, p)
      | some left => do
        let left := if negated then GenericExpressionNode.negate left else left
        let p := npConsumeWhitespace fuel p
        let nextAndOr :=
          match npAt p 1 with
          | .identToken i => some (jsToLower i)
          | _ => none
        match nextAndOr with
        | some nextAndOr => do
          let p := npConsumeWhitespace fuel (npConsume p 1)
          if (nextAndOr ≠ "and" ∧ nextAndOr ≠ "or") ∨
              (andOr ≠ none ∧ some nextAndOr ≠ andOr) then
            pure (none, p)
          else do
            let (right, p) ← parseQueryCondition fuel p (some nextAndOr)
            match right with
            | none => pure (none, p)
            | some right =>
              if nextAndOr = "and" then
                pure (some (.conjunction left right), p)
              else
                pure (some (.disjunction left right), p)
        | none =>
          let (eof, p) := npIsEOF fuel p
          pure (if eof then some left else none, p)

/-- `parseQueryInParens` from utils/parse-media-query.ts. -/
def parseQueryInParens (fuel : Nat) (p : NP) :
    Except JsError (Option GenericExpressionNode × NP) :=
  match fuel with
  | 0 => throw fuelMsg
  | fuel + 1 => do
    let p := npConsume p 1
    match npAt p 0 with
    | .blockNode source btype value =>
      if ¬(source matches .leftParenthesisToken) then pure (none, p)
      else do
        let (maybeQueryCondition, _) ← parseQueryCondition fuel (npCreate value) none
        match maybeQueryCondition with
        | some c => pure (some c, p)
        | none => pure (some (.literal (.blockNode source btype value)), p)
    | .functionNode name value =>
      pure (some (.literal (.functionNode name value)), p)
    | _ => pure (none, p)

end

/-- `consumeMediaCondition` from utils/parse-media-query.ts. -/
def consumeMediaCondition (fuel : Nat) (p : NP) :
    Except JsError (Option GenericExpressionNode × NP) :=
  parseQueryCondition fuel p none

/-- `parseMediaCondition` from utils/parse-media-query.ts. -/
def parseMediaCondition (fuel : Nat) (nodes : List Node) :
    Except JsError (Option GenericExpressionNode) := do
  let (c, _) ← consumeMediaCondition fuel (npCreate nodes)
  pure c

/-- `transformMediaConditionToTokens` from utils/parse-media-query.ts. -/
def transformMediaConditionToTokens : GenericExpressionNode → List Node
  | .negate value => [ident "not", ws] ++ transformMediaConditionToTokens value
  | .conjunction left right =>
    transformMediaConditionToTokens left ++ [ws, ident "and", ws] ++
      transformMediaConditionToTokens right
  | .disjunction left right =>
    transformMediaConditionToTokens left ++ [ws, ident "or", ws] ++
      transformMediaConditionToTokens right
  | .literal value => [value]

/-! ### constants.ts -/

/-- `INTERNAL_KEYWORD_PREFIX` from constants.ts. -/
def internalKeywordPref : String := "cq-"

/-- `getCustomVariableName` from constants.ts, with the per-run salt as a
parameter (`PER_RUN_UID` is random at module load). -/
def getCustomVariableName (salt : String) (name : String) : String :=
  "--cq-" ++ name ++ "-" ++ salt

/-! ### parser.ts : container rule and declaration parsing -/

/-- `SIZE_FEATURE_MAP` from parser.ts. -/
def sizeFeatureMap (s : String) : Option SizeFeature :=
  match s with
  | "width" => some .width
  | "height" => some .height
  | "inline-size" => some .inlineSize
  | "block-size" => some .blockSize
  | "aspect-ratio" => some SizeFeature.aspectRatioF
  | "orientation" => some .orientation
  | _ => none

/-- `FEATURE_NAMES` from parser.ts. -/
def featureNames : List String :=
  ["width", "height", "inline-size", "block-size", "aspect-ratio", "orientation"]

/-- `CONTAINER_INVALID_NAMES` from parser.ts. -/
def containerInvalidNames : List String := ["none", "and", "not", "or", "normal", "auto"]

/-- `CONTAINER_STANDALONE_KEYWORD` from parser.ts. -/
def containerStandaloneKeyword : List String :=
  ["initial", "inherit", "revert", "revert-layer", "unset"]

/-- `CONTAINER_TYPES` from parser.ts. -/
def containerTypes : List String := ["size", "inline-size"]

/-- `consumeMaybeSeparatedByDelim` from parser.ts (the `consumeA` and
`consumeB` closures become explicit parser-threading functions). -/
def consumeMaybeSeparatedByDelim {α β : Type} (fuel : Nat) (p : NP) (delimChar : String)
    (consumeA : NP → Except JsError (Option α × NP))
    (consumeB : NP → Except JsError (Option β × NP)) :
    Except JsError (Option (α × Option β) × NP) := do
  let (first, p) ← consumeA p
  match first with
  | none => pure (none, p)
  | some first => do
    let p := npConsumeWhitespace fuel p
    let (res, bail, p) ←
      match npAt p 1 with
      | .delimToken d =>
        if d ≠ delimChar then pure ((first, none), true, p)
        else do
          let p := npConsumeWhitespace fuel (npConsume p 1)
          let (second, p) ← consumeB p
          let p := npConsumeWhitespace fuel p
          match second with
          | some second => pure ((first, some second), false, p)
          | none => pure ((first, none), false, p)
      | _ => pure ((first, none), false, p)
    if bail then pure (none, p)
    else
      let (eof, p) := npIsEOF fuel p
      pure (if eof then some res else none, p)

/-- `parseInt` at radix 10 on a CSS numeric-token text: optional sign
then the longest digit prefix; `none` is NaN (no digits). -/
def jsParseInt (s : String) : Option Int :=
  let core : List Char → Option Nat := fun l =>
    let ds := l.takeWhile (fun c => '0' ≤ c ∧ c ≤ '9')
    if ds.isEmpty then none
    else some (ds.foldl (fun acc c => acc * 10 + (c.toNat - 48)) 0)
  match s.data with
  | '-' :: rest => (core rest).map (fun n => -(n : Int))
  | '+' :: rest => (core rest).map (fun n => (n : Int))
  | l => (core l).map (fun n => (n : Int))

/-- `parseInt(node.value)` as a JS number (NaN when no digits). -/
def jsParseIntNum (s : String) : JSNum := (jsParseInt s).map (fun i => (i : ℚ))

/-- `consumeNumber` from parser.ts: `parseInt` on a number token.  The
outer `none` is `PARSE_ERROR`; the inner `none` is NaN. -/
def cqConsumeNumber (p : NP) : Except JsError (Option JSNum × NP) := do
  let p := npConsume p 1
  match npAt p 0 with
  | .numberToken v _ => pure (some (jsParseIntNum v), p)
  | _ => pure (none, p)

/-- `consumeNumberOrRatio` from parser.ts. -/
def consumeNumberOrRat (fuel : Nat) (p : NP) : Except JsError (Option Value × NP) := do
  let (result, p) ← consumeMaybeSeparatedByDelim fuel p "/" cqConsumeNumber cqConsumeNumber
  match result with
  | none => pure (none, p)
  | some (numerator, maybeDenominator) =>
    let denominator := match maybeDenominator with
      | some d => d
      | none => some 1
    pure (some (.number (jsDiv numerator denominator)), p)

/-- `consumeValue` from parser.ts. -/
def consumeValue (fuel : Nat) (nodes : List Node) :
    Except JsError (Option ExpressionNode) := do
  let p := npCreate nodes
  let p := npConsumeWhitespace fuel p
  let p := npConsume p 1
  let (value, p) ← (do
    match npAt p 0 with
    | .numberToken _ _ => consumeNumberOrRat fuel (npReconsume p)
    | .dimensionToken v _ unit =>
      pure (some (Value.dimension (jsParseIntNum v) (jsToLower unit)), p)
    | .identToken i =>
      match jsToLower i with
      | "landscape" => pure (some (Value.orientation .landscape), p)
      | "portrait" => pure (some (Value.orientation .portrait), p)
      | _ => pure ((none : Option Value), p)
    | _ => pure (none, p) : Except JsError (Option Value × NP))
  match value with
  | none => pure none
  | some value =>
    let (eof, _) := npIsEOF fuel p
    pure (if eof then some (.value value) else none)

/-- `parseSizeFeature` from parser.ts.  `consumeMediaFeature` returns
`null` on failure, which the source compares against the `PARSE_ERROR`
symbol (never equal), so the subsequent `.feature` access throws. -/
def parseSizeFeature (fuel : Nat) (p : NP) (features : List SizeFeature) :
    Except JsError (Option ExpressionNode × List SizeFeature × NP) := do
  let (mediaFeature, p) := consumeMediaFeature fuel p featureNames
  match mediaFeature with
  | none => throw "TypeError: Cannot read properties of null (reading 'feature')"
  | some mf =>
    let featureName := match mf with
      | .boolean f => f
      | .range f _ => f
    match sizeFeatureMap featureName with
    | none => pure (none, features, p)
    | some feature =>
      let features := if features.contains feature then features
        else features ++ [feature]
      match mf with
      | .boolean _ => pure (some (.feature feature), features, p)
      | .range _ bounds => do
        let featureValue := ExpressionNode.feature feature
        let left ← (do
          match bounds.1 with
          | some (op, chunk) => do
            let v ← consumeValue fuel chunk
            match v with
            | none => pure (none : Option (Option ExpressionNode))
            | some v => pure (some (some (.comparison op v featureValue)))
          | none => pure (some none) : Except JsError (Option (Option ExpressionNode)))
        match left with
        | none => pure (none, features, p)
        | some left => do
          match bounds.2 with
          | some (op, chunk) => do
            let v ← consumeValue fuel chunk
            match v with
            | none => pure (none, features, p)
            | some v =>
              let right := ExpressionNode.comparison op featureValue v
              match left with
              | some left =>
                pure (some (.conjunction left right), features, p)
              | none => pure (some right, features, p)
          | none =>
            match left with
            | some left => pure (some left, features, p)
            | none => pure (none, features, p)

/-- `isValidContainerName` from parser.ts. -/
def isValidContainerName (name : String) : Bool :=
  let name := jsToLower name
  ¬containerStandaloneKeyword.contains name ∧ ¬containerInvalidNames.contains name

/-- `consumeZeroOrMoreIdents` from parser.ts. -/
def consumeZeroOrMoreIdents (fuel : Nat) (p : NP) (f : String → Bool)
    (acc : List String) : List String × NP :=
  match fuel with
  | 0 => (acc, p)
  | fuel + 1 =>
    let p := npConsumeWhitespace fuel p
    match npAt p 1 with
    | .identToken i =>
      if f i then consumeZeroOrMoreIdents fuel (npConsume p 1) f (acc ++ [i])
      else (acc, p)
    | _ => (acc, p)

/-- `consumeContainerNames` from parser.ts. -/
def consumeContainerNames (fuel : Nat) (p : NP) (acc : List String) :
    List String × NP :=
  match fuel with
  | 0 => (acc, p)
  | fuel + 1 =>
    let p := npConsumeWhitespace fuel p
    match npAt p 1 with
    | .identToken name =>
      if isValidContainerName name then
        consumeContainerNames fuel (npConsume p 1) (acc ++ [name])
      else (acc, p)
    | _ => (acc, p)

/-- `isContainerStandaloneKeyword` from parser.ts. -/
def isContainerStandaloneKeywordF (name : String) : Bool :=
  containerStandaloneKeyword.contains name

/-- `transformInternalKeywords` from parser.ts. -/
def transformInternalKeywords (idents : List String) : List String :=
  idents.map (fun i => internalKeywordPref ++ i)

/-- `consumeContainerStandaloneKeyword` from parser.ts. -/
def consumeContainerStandaloneKeyword (fuel : Nat) (p : NP) :
    Option (List String) × NP :=
  let (keywords, p) :=
    consumeZeroOrMoreIdents fuel p (fun i => isContainerStandaloneKeywordF i) []
  if keywords.length = 1 then (some (transformInternalKeywords keywords), p)
  else (none, p)

/-- `consumeContainerTypes` from parser.ts. -/
def consumeContainerTypes (fuel : Nat) (p : NP) : Option (List String) × NP :=
  let (keywords, p) := consumeZeroOrMoreIdents fuel p (fun t => t = "normal") []
  if keywords.length = 1 then (some (transformInternalKeywords keywords), p)
  else if keywords.length ≠ 0 then (none, p)
  else
    let (types, p) := consumeZeroOrMoreIdents fuel p (fun t => containerTypes.contains t) []
    let (eof, p) := npIsEOF fuel p
    if types.length > 0 ∧ eof then (some types, p) else (none, p)

/-- `consumeContainerNameProperty` from parser.ts. -/
def consumeContainerNameProperty (fuel : Nat) (p : NP) (standalone : Bool) :
    Option (List String) × NP :=
  let (keywords, p) := consumeZeroOrMoreIdents fuel p (fun t => t = "none") []
  if keywords.length = 1 then (some (transformInternalKeywords keywords), p)
  else if keywords.length ≠ 0 then (none, p)
  else
    let (maybeKeywords, p) :=
      if standalone then consumeContainerStandaloneKeyword fuel p else (none, p)
    match maybeKeywords with
    | some ks => (some ks, p)
    | none =>
      let (names, p) := consumeContainerNames fuel p []
      if names.length > 0 then
        if standalone then
          let (eof, p) := npIsEOF fuel p
          if eof then (some names, p) else (none, p)
        else (some names, p)
      else (none, p)

/-- `consumeContainerTypeProperty` from parser.ts. -/
def consumeContainerTypeProperty (fuel : Nat) (p : NP) (standalone : Bool) :
    Option (List String) × NP :=
  let (maybeKeywords, p) :=
    if standalone then consumeContainerStandaloneKeyword fuel p else (none, p)
  match maybeKeywords with
  | some ks => (some ks, p)
  | none => consumeContainerTypes fuel p

/-- `parseContainerShorthand` from parser.ts. -/
def parseContainerShorthand (fuel : Nat) (nodes : List Node) :
    Except JsError (Option (List String × List String)) := do
  let p := npCreate nodes
  let (keywords, p) := consumeContainerStandaloneKeyword fuel p
  match keywords with
  | some ks => pure (some (ks, ks))
  | none => do
    let (result, p) ← consumeMaybeSeparatedByDelim fuel p "/"
      (fun p => pure (consumeContainerNameProperty fuel p false))
      (fun p => pure (consumeContainerTypeProperty fuel p false))
    match result with
    | none => pure none
    | some (names, maybeTypes) =>
      let (eof, _) := npIsEOF fuel p
      if eof then
        pure (some (names, maybeTypes.getD []))
      else pure none

/-- `transformExpression` from parser.ts: lowers the generic condition
AST to the typed one, collecting referenced size features. -/
def transformExpression (fuel : Nat) (node : GenericExpressionNode)
    (features : List SizeFeature) :
    Except JsError (ExpressionNode × List SizeFeature) :=
  match node with
  | .negate value => do
    let (v, features) ← transformExpression fuel value features
    pure (.negate v, features)
  | .conjunction left right => do
    let (l, features) ← transformExpression fuel left features
    let (r, features) ← transformExpression fuel right features
    pure (.conjunction l r, features)
  | .disjunction left right => do
    let (l, features) ← transformExpression fuel left features
    let (r, features) ← transformExpression fuel right features
    pure (.disjunction l r, features)
  | .literal value =>
    match value with
    | .blockNode _source _btype inner => do
      let (expression, features', _) ← parseSizeFeature fuel (npCreate inner) features
      match expression with
      | some e => pure (e, features')
      | none => pure (.value .unknown, features')
    | _ => pure (.value .unknown, features)

/-- `parseContainerRule` from parser.ts (`none` = `PARSE_ERROR`). -/
def parseContainerRule (fuel : Nat) (nodes : List Node) :
    Except JsError (Option ContainerRule) := do
  let p := npCreate nodes
  let (names, p) := consumeContainerNames fuel p []
  if names.length > 1 then pure none
  else do
    let (rawCondition, p) ← consumeMediaCondition fuel p
    match rawCondition with
    | none => pure none
    | some rawCondition => do
      let (condition, features) ← transformExpression fuel rawCondition []
      let (eof, _) := npIsEOF fuel p
      if eof then
        pure (some { name := names.head?, condition, features })
      else pure none

/-! ### transform.ts : the stylesheet transformer -/

/-- Browser and build environment consulted by the transformer:
`IS_WPT_BUILD`, `isWherePseudoClassSupported()`, whether
`DUMMY_ELEMENT.matches(sel)` throws, `new URL(value, base)` (`none` =
throws), and the random per-run salt `PER_RUN_UID`. -/
structure Env where
  isWptBuild : Bool
  wherePseudoSupported : Bool
  matchesThrows : String → Bool
  resolveUrl : String → String → Option String
  perRunUid : String

/-- `DATA_ATTRIBUTE_SELF` from constants.ts. -/
def dataAttributeSelf (env : Env) : String := "data-cqs-" ++ env.perRunUid

/-- `DATA_ATTRIBUTE_CHILD` from constants.ts. -/
def dataAttributeChild (env : Env) : String := "data-cqc-" ++ env.perRunUid

/-- `CUSTOM_PROPERTY_SHORTHAND` from constants.ts. -/
def customPropertyShorthand (env : Env) : String :=
  getCustomVariableName env.perRunUid "container"

/-- `CUSTOM_PROPERTY_TYPE` from constants.ts. -/
def customPropertyType (env : Env) : String :=
  getCustomVariableName env.perRunUid "container-type"

/-- `CUSTOM_PROPERTY_NAME` from constants.ts. -/
def customPropertyName (env : Env) : String :=
  getCustomVariableName env.perRunUid "container-name"

/-- `CUSTOM_UNIT_MAP` from transform.ts. -/
def customUnitMap (env : Env) (name : String) : Option String :=
  match name with
  | "cqw" => some (getCustomVariableName env.perRunUid "cqw")
  | "cqh" => some (getCustomVariableName env.perRunUid "cqh")
  | "cqi" => some (getCustomVariableName env.perRunUid "cqi")
  | "cqb" => some (getCustomVariableName env.perRunUid "cqb")
  | _ => none

/-- `NO_WHERE_SELECTOR` from transform.ts. -/
def noWhereSelectorStr : String := ":not(.container-query-polyfill)"

/-- `NO_WHERE_SELECTOR_TOKENS` from transform.ts. -/
def noWhereSelectorTokens : List Node :=
  (parseComponentValue 99 (tokenize noWhereSelectorStr)).toOption.getD []

/-- `SINGLE_COLON_PSEUDO_ELEMENTS` from transform.ts. -/
def singleColonPseudoElements : List String :=
  ["before", "after", "first-line", "first-letter"]

/-- `ContainerQueryDescriptor` from transform.ts.  The `parent` object
reference is modelled by the parent descriptor's uid. -/
structure ContainerQueryDescriptor where
  rule : ContainerRule
  uid : String
  selector : Option String
  parent : Option String
deriving DecidableEq, Repr

/-- `TranspilationResult` from transform.ts. -/
structure TranspilationResult where
  source : String
  descriptors : List ContainerQueryDescriptor
deriving DecidableEq, Repr

/-- An entry of the `invalidSelectors` array of `transformContainerAtRule`. -/
structure InvalidSelector where
  actual : String
  expected : String
deriving DecidableEq, Repr

/-- Transformer state: the module-global `CONTAINER_ID` counter, the
shared `context.descriptors` array, and the `elementSelectors` /
`invalidSelectors` arrays captured by the innermost enclosing
`transformContainerAtRule` call (saved and restored around nesting). -/
structure TState where
  nextId : Nat
  descriptors : List ContainerQueryDescriptor
  elementSelectors : List String
  invalidSelectors : List InvalidSelector
deriving Repr

/-- The `transformStyleRule` closure carried by `TransformContext`:
either the top-level identity or the selector-rewriting closure created
by `transformContainerAtRule` for the descriptor with this uid. -/
inductive StyleRuleTransform
  | identity
  | container (uid : String)
deriving DecidableEq, Repr

/-- `TransformContext` from transform.ts (`descriptors` lives in `TState`;
`parent` is modelled by the parent descriptor's uid). -/
structure TransformContext where
  parent : Option String
  styleRule : StyleRuleTransform
deriving DecidableEq, Repr

/-- `transformContainerDimensions` and `generateCalcExpression` from
transform.ts. -/
def generateCalcExpression (value : String) (flag : NumberFlag) (unit : Node) : Node :=
  func "calc" [.numberToken value flag, delim "*", unit]

/-- `transformContainerDimensions` from transform.ts. -/
def transformContainerDimensions (env : Env) (node : Node) : Node :=
  match node with
  | .dimensionToken value flag unit =>
    match customUnitMap env unit with
    | some varName => generateCalcExpression value flag (customVar varName)
    | none =>
      if unit = "cqmin" ∨ unit = "cqmax" then
        generateCalcExpression value flag
          (func (strDropChars unit 2)
            [customVar (getCustomVariableName env.perRunUid "cqi"),
             .commaToken,
             customVar (getCustomVariableName env.perRunUid "cqb")])
      else node
  | _ => node

mutual

/-- `transformContainerUnits` from transform.ts. -/
def transformContainerUnits (env : Env) (nodes : List Node) : List Node :=
  match nodes with
  | [] => []
  | n :: rest => transformContainerUnitsOne env n :: transformContainerUnits env rest

/-- The element-wise body of `transformContainerUnits`. -/
def transformContainerUnitsOne (env : Env) (node : Node) : Node :=
  match node with
  | .dimensionToken value flag unit =>
    transformContainerDimensions env (.dimensionToken value flag unit)
  | .functionNode name value => .functionNode name (transformContainerUnits env value)
  | node => node

end

/-- `transformPropertyDeclaration` from transform.ts.  The `result ?`
and `result != null` checks in the source are always true (the
`PARSE_ERROR` symbol, like any parse result, is truthy), so the three
container property names are always renamed. -/
def transformPropertyDeclaration (env : Env) (node : Node) : Node :=
  match node with
  | .declarationNode name value important =>
    match name with
    | "container" => .declarationNode (customPropertyShorthand env) value important
    | "container-name" => .declarationNode (customPropertyName env) value important
    | "container-type" => .declarationNode (customPropertyType env) value important
    | _ => .declarationNode name (transformContainerUnits env value) important
  | node => node

/-- `transformSupportsExpression` from transform.ts. -/
def transformSupportsExpression (fuel : Nat) (env : Env)
    (node : GenericExpressionNode) : Except JsError GenericExpressionNode :=
  match node with
  | .negate value => do
    let v ← transformSupportsExpression fuel env value
    pure (.negate v)
  | .conjunction left right => do
    let l ← transformSupportsExpression fuel env left
    let r ← transformSupportsExpression fuel env right
    pure (.conjunction l r)
  | .disjunction left right => do
    let l ← transformSupportsExpression fuel env left
    let r ← transformSupportsExpression fuel env right
    pure (.disjunction l r)
  | .literal value =>
    match value with
    | .blockNode source btype inner => do
      let declaration ← parseDeclaration fuel inner
      match declaration with
      | some d =>
        pure (.literal (.blockNode source .simpleBlock
          [transformPropertyDeclaration env d]))
      | none => pure (.literal (.blockNode source btype inner))
    | _ => pure (.literal value)

/-- `isEndOfSelector` from transform.ts. -/
def isEndOfSelector (n1 : Node) : Bool :=
  n1 matches .eofToken ∨ n1 matches .commaToken

/-- `isPseudoElementStart` from transform.ts. -/
def isPseudoElementStart (n1 n2 : Node) : Bool :=
  isEndOfSelector n1 ||
    ((n1 matches .colonToken) &&
      ((n2 matches .colonToken) ||
        (match n2 with
         | .identToken i => singleColonPseudoElements.contains (jsToLower i)
         | _ => false)))

/-- `trimTrailingWhitespace` from transform.ts (returns the input when
every node is whitespace, like the source's fall-through). -/
def trimTrailingWhitespace (nodes : List Node) : List Node :=
  let r := nodes.reverse.dropWhile (fun n => n matches .whitespaceToken)
  if r.isEmpty then nodes else r.reverse

/-- `endsWith` on strings, by character list. -/
def strEndsWith (s suffix : String) : Bool := suffix.data.isSuffixOf s.data

/-- `substring(0, n)` on strings, by character list. -/
def strTakeChars (s : String) (n : Nat) : String := String.mk (s.data.take n)

/-- `Array.prototype.slice(a, b)` on node lists (0 ≤ a, b). -/
def sliceNodes (nodes : List Node) (a b : Int) : List Node :=
  (nodes.take b.toNat).drop a.toNat

/-- The "consume non-pseudo part" loop of `transformSelector`. -/
def selConsumeNonPseudo (fuel : Nat) (p : NP) : NP :=
  match fuel with
  | 0 => p
  | fuel + 1 =>
    if isPseudoElementStart (npAt p 1) (npAt p 2) then p
    else selConsumeNonPseudo fuel (npConsume p 1)

/-- The "consume pseudo part" loop of `transformSelector`. -/
def selConsumePseudo (fuel : Nat) (p : NP) : NP :=
  match fuel with
  | 0 => p
  | fuel + 1 =>
    if isEndOfSelector (npAt p 1) then p
    else selConsumePseudo fuel (npConsume p 1)

/-- The main loop of `transformSelector` from transform.ts.  Returns the
element selector, the style selector, and the invalid selectors reported
through `invalidSelectorCallback`. -/
def transformSelectorLoop (fuel : Nat) (env : Env) (nodes : List Node)
    (containerUID : String) (p : NP)
    (elementSelector styleSelector : List Node)
    (invalids : List InvalidSelector) :
    Except JsError (List Node × List Node × List InvalidSelector) :=
  match fuel with
  | 0 => throw fuelMsg
  | fuel + 1 =>
    if npAt p 1 matches .eofToken then
      pure (elementSelector, styleSelector, invalids)
    else do
      let selectorStartIndex : Int := max 0 p.idx
      let p := selConsumeNonPseudo fuel p
      let pseudoStartIndex : Int := p.idx + 1
      let rawTargetSelector := sliceNodes nodes selectorStartIndex pseudoStartIndex
      let targetSelector :=
        if rawTargetSelector.length > 0 then trimTrailingWhitespace rawTargetSelector
        else [delim "*"]
      let p := selConsumePseudo fuel p
      let targetSelector :=
        if env.isWptBuild ∧ ¬env.wherePseudoSupported then
          targetSelector ++ noWhereSelectorTokens
        else targetSelector
      let pseudoPart := sliceNodes nodes pseudoStartIndex (max 0 (p.idx + 1))
      let isSelfSelector := pseudoPart.length > 0
      let styleSelectorSuffix : List Node :=
        [.blockNode .leftSquareBracketToken .simpleBlock
          [ident (if isSelfSelector then dataAttributeSelf env else dataAttributeChild env),
           delim "~", delim "=", .stringToken containerUID]]
      let (targetSelectorForStyle, styleSelectorSuffix, invalids) ←
        (if ¬env.wherePseudoSupported then do
          let actual ← serializeList targetSelector
          if ¬strEndsWith actual noWhereSelectorStr then
            pure (targetSelector, styleSelectorSuffix,
              invalids ++ [⟨actual, actual ++ noWhereSelectorStr⟩])
          else do
            let ts ← parseComponentValue fuel
              (tokenize (strTakeChars actual (actual.length - noWhereSelectorStr.length)))
            pure (ts, styleSelectorSuffix, invalids)
        else
          pure (targetSelector, [delim ":", func "where" styleSelectorSuffix], invalids) :
          Except JsError (List Node × List Node × List InvalidSelector))
      let elementSelector := elementSelector ++ targetSelector
      let styleSelector := styleSelector ++ targetSelectorForStyle ++
        styleSelectorSuffix ++ pseudoPart
      let p := npConsume p 1
      transformSelectorLoop fuel env nodes containerUID p elementSelector styleSelector invalids

/-- `transformSelector` from transform.ts. -/
def transformSelector (fuel : Nat) (env : Env) (nodes : List Node)
    (containerUID : String) :
    Except JsError (List Node × List Node × List InvalidSelector) :=
  transformSelectorLoop fuel env nodes containerUID (npCreate nodes) [] [] []

/-- Deduplicating `Set.add` for `elementSelectors` (insertion order). -/
def addElementSelector (sels : List String) (s : String) : List String :=
  if sels.contains s then sels else sels ++ [s]

mutual

/-- `transformStylesheet` from transform.ts. -/
def transformStylesheet (fuel : Nat) (env : Env) (node : Blk)
    (context : TransformContext) (st : TState) : Except JsError (Blk × TState) :=
  match fuel with
  | 0 => throw fuelMsg
  | fuel + 1 => do
    let (value, st) ← transformRuleListLoop fuel env node.value context st
    pure ({ node with value }, st)

/-- The `node.value.map(...)` loop of `transformStylesheet`. -/
def transformRuleListLoop (fuel : Nat) (env : Env) (rules : List Node)
    (context : TransformContext) (st : TState) :
    Except JsError (List Node × TState) :=
  match fuel with
  | 0 => throw fuelMsg
  | fuel + 1 =>
    match rules with
    | [] => pure ([], st)
    | rule :: rest => do
      let (rule, st) ←
        match rule with
        | .atRuleNode name rulePrelude value =>
          transformAtRule fuel env (.atRuleNode name rulePrelude value) context st
        | .qualifiedRuleNode rulePrelude value =>
          transformStyleRule fuel env (.qualifiedRuleNode rulePrelude value) context st
        | rule => pure (rule, st)
      let (rest, st) ← transformRuleListLoop fuel env rest context st
      pure (rule :: rest, st)

/-- `transformAtRule` from transform.ts (dispatch on the lowercased
at-rule name). -/
def transformAtRule (fuel : Nat) (env : Env) (node : Node)
    (context : TransformContext) (st : TState) : Except JsError (Node × TState) :=
  match fuel with
  | 0 => throw fuelMsg
  | fuel + 1 =>
    match node with
    | .atRuleNode name rulePrelude value =>
      match jsToLower name with
      | "media" => transformMediaAtRule fuel env (.atRuleNode name rulePrelude value) context st
      | "keyframes" => transformKeyframesAtRule fuel env (.atRuleNode name rulePrelude value) context st
      | "supports" => transformSupportsAtRule fuel env (.atRuleNode name rulePrelude value) context st
      | "container" => transformContainerAtRule fuel env (.atRuleNode name rulePrelude value) context st
      | "layer" => transformLayerAtRule fuel env (.atRuleNode name rulePrelude value) context st
      | _ => pure (node, st)
    | _ => pure (node, st)

/-- `transformMediaAtRule` from transform.ts. -/
def transformMediaAtRule (fuel : Nat) (env : Env) (node : Node)
    (context : TransformContext) (st : TState) : Except JsError (Node × TState) :=
  match fuel with
  | 0 => throw fuelMsg
  | fuel + 1 =>
    match node with
    | .atRuleNode name rulePrelude (some (.blockNode bsrc _ bval)) => do
      let parsed ← parseStylesheet fuel bval none
      let (blk, st) ← transformStylesheet fuel env parsed context st
      pure (.atRuleNode name rulePrelude (some (.blockNode bsrc blk.btype blk.value)), st)
    | _ => pure (node, st)

/-- `transformKeyframesAtRule` from transform.ts. -/
def transformKeyframesAtRule (fuel : Nat) (env : Env) (node : Node)
    (context : TransformContext) (st : TState) : Except JsError (Node × TState) :=
  match fuel with
  | 0 => throw fuelMsg
  | fuel + 1 =>
    match node with
    | .atRuleNode name rulePrelude (some (.blockNode bsrc _ bval)) => do
      let parsed ← parseStylesheet fuel bval none
      let (rules, st) ← transformKeyframesLoop fuel env parsed.value context st
      pure (.atRuleNode name rulePrelude (some (.blockNode bsrc .ruleList rules)), st)
    | _ => pure (node, st)

/-- The member loop of `transformKeyframesAtRule`. -/
def transformKeyframesLoop (fuel : Nat) (env : Env) (rules : List Node)
    (context : TransformContext) (st : TState) :
    Except JsError (List Node × TState) :=
  match fuel with
  | 0 => throw fuelMsg
  | fuel + 1 =>
    match rules with
    | [] => pure ([], st)
    | rule :: rest => do
      let (rule, st) ←
        match rule with
        | .qualifiedRuleNode rulePrelude value =>
          transformKeyframeRule fuel env (.qualifiedRuleNode rulePrelude value) context st
        | .atRuleNode name rulePrelude value =>
          transformAtRule fuel env (.atRuleNode name rulePrelude value) context st
        | rule => pure (rule, st)
      let (rest, st) ← transformKeyframesLoop fuel env rest context st
      pure (rule :: rest, st)

/-- `transformKeyframeRule` from transform.ts. -/
def transformKeyframeRule (fuel : Nat) (env : Env) (node : Node)
    (context : TransformContext) (st : TState) : Except JsError (Node × TState) :=
  match fuel with
  | 0 => throw fuelMsg
  | fuel + 1 =>
    match node with
    | .qualifiedRuleNode rulePrelude value => do
      let (value, st) ← transformDeclarationBlockWithContext fuel env value context st
      pure (.qualifiedRuleNode rulePrelude value, st)
    | _ => pure (node, st)

/-- `transformDeclarationBlockWithContext` from transform.ts. -/
def transformDeclarationBlockWithContext (fuel : Nat) (env : Env) (node : Node)
    (context : TransformContext) (st : TState) : Except JsError (Node × TState) :=
  match fuel with
  | 0 => throw fuelMsg
  | fuel + 1 => transformDeclarationBlock fuel env node (some context) st

/-- `transformDeclarationBlock` from transform.ts: rewrites container
property declarations into the internal custom properties, normalising
the names/types to at most one declaration each. -/
def transformDeclarationBlock (fuel : Nat) (env : Env) (node : Node)
    (context : Option TransformContext) (st : TState) :
    Except JsError (Node × TState) :=
  match fuel with
  | 0 => throw fuelMsg
  | fuel + 1 =>
    match node with
    | .blockNode bsrc _ bval => do
      let (declarations, containerNames, containerTypes, st) ←
        transformDeclarationLoop fuel env bval context [] none none st
      let declarations :=
        match containerNames with
        | some ns =>
          if ns.length > 0 then
            declarations ++ [decl (customPropertyName env) [ident (" ".intercalate ns)]]
          else declarations
        | none => declarations
      let declarations :=
        match containerTypes with
        | some ts =>
          if ts.length > 0 then
            declarations ++ [decl (customPropertyType env) [ident (" ".intercalate ts)]]
          else declarations
        | none => declarations
      pure (.blockNode bsrc .declarationList declarations, st)
    | _ => pure (node, st)

/-- The member loop of `transformDeclarationBlock`. -/
def transformDeclarationLoop (fuel : Nat) (env : Env) (members : List Node)
    (context : Option TransformContext) (declarations : List Node)
    (containerNames containerTypes : Option (List String)) (st : TState) :
    Except JsError (List Node × Option (List String) × Option (List String) × TState) :=
  match fuel with
  | 0 => throw fuelMsg
  | fuel + 1 =>
    match members with
    | [] => pure (declarations, containerNames, containerTypes, st)
    | member :: rest =>
      match member with
      | .atRuleNode name rulePrelude value => do
        let (newAtRule, st) ←
          match context with
          | some context =>
            transformAtRule fuel env (.atRuleNode name rulePrelude value) context st
          | none => pure ((Node.atRuleNode name rulePrelude value), st)
        transformDeclarationLoop fuel env rest context (declarations ++ [newAtRule])
          containerNames containerTypes st
      | .declarationNode dname dvalue dimportant => do
        let newDeclaration :=
          transformPropertyDeclaration env (.declarationNode dname dvalue dimportant)
        let newName := match newDeclaration with
          | .declarationNode n _ _ => n
          | _ => ""
        if newName = customPropertyShorthand env then do
          let result ← parseContainerShorthand fuel dvalue
          let (containerNames, containerTypes) :=
            match result with
            | some (ns, ts) => (some ns, some ts)
            | none => (containerNames, containerTypes)
          transformDeclarationLoop fuel env rest context declarations
            containerNames containerTypes st
        else if newName = customPropertyName env then
          let (result, _) := consumeContainerNameProperty fuel (npCreate dvalue) true
          let containerNames :=
            match result with
            | some ns => some ns
            | none => containerNames
          transformDeclarationLoop fuel env rest context declarations
            containerNames containerTypes st
        else if newName = customPropertyType env then
          let (result, _) := consumeContainerTypeProperty fuel (npCreate dvalue) true
          let containerTypes :=
            match result with
            | some ts => some ts
            | none => containerTypes
          transformDeclarationLoop fuel env rest context declarations
            containerNames containerTypes st
        else
          transformDeclarationLoop fuel env rest context (declarations ++ [newDeclaration])
            containerNames containerTypes st
      | _ =>
        transformDeclarationLoop fuel env rest context declarations
          containerNames containerTypes st

/-- `transformSupportsAtRule` from transform.ts. -/
def transformSupportsAtRule (fuel : Nat) (env : Env) (node : Node)
    (context : TransformContext) (st : TState) : Except JsError (Node × TState) :=
  match fuel with
  | 0 => throw fuelMsg
  | fuel + 1 =>
    match node with
    | .atRuleNode name rulePrelude value => do
      let condition ← parseMediaCondition fuel rulePrelude
      let condition ← match condition with
        | some c => do
          let c ← transformSupportsExpression fuel env c
          pure (some c)
        | none => pure none
      let newPrelude := match condition with
        | some c => transformMediaConditionToTokens c
        | none => rulePrelude
      match value with
      | some (.blockNode bsrc _ bval) => do
        let parsed ← parseStylesheet fuel bval none
        let (blk, st) ← transformStylesheet fuel env parsed context st
        pure (.atRuleNode name newPrelude (some (.blockNode bsrc blk.btype blk.value)), st)
      | _ => pure (.atRuleNode name newPrelude value, st)
    | _ => pure (node, st)

/-- `transformLayerAtRule` from transform.ts. -/
def transformLayerAtRule (fuel : Nat) (env : Env) (node : Node)
    (context : TransformContext) (st : TState) : Except JsError (Node × TState) :=
  match fuel with
  | 0 => throw fuelMsg
  | fuel + 1 =>
    match node with
    | .atRuleNode name rulePrelude (some (.blockNode bsrc _ bval)) => do
      let parsed ← parseStylesheet fuel bval none
      let (blk, st) ← transformStylesheet fuel env parsed context st
      pure (.atRuleNode name rulePrelude (some (.blockNode bsrc blk.btype blk.value)), st)
    | _ => pure (node, st)

/-- `transformContainerAtRule` from transform.ts: on a parsed prelude,
allocates a descriptor uid from the `CONTAINER_ID` counter, transforms
the body with the selector-rewriting context, collects the element
selectors, pushes the descriptor and replaces the rule by
`@media all { … }`; otherwise returns the rule unchanged. -/
def transformContainerAtRule (fuel : Nat) (env : Env) (node : Node)
    (context : TransformContext) (st : TState) : Except JsError (Node × TState) :=
  match fuel with
  | 0 => throw fuelMsg
  | fuel + 1 =>
    match node with
    | .atRuleNode name rulePrelude (some (.blockNode bsrc bbt bval)) => do
      let rule ← parseContainerRule fuel rulePrelude
      match rule with
      | none => pure (.atRuleNode name rulePrelude (some (.blockNode bsrc bbt bval)), st)
      | some rule => do
        let uid := "c" ++ Nat.repr st.nextId
        let st := { st with nextId := st.nextId + 1 }
        let savedElementSelectors := st.elementSelectors
        let savedInvalidSelectors := st.invalidSelectors
        let st := { st with elementSelectors := [], invalidSelectors := [] }
        let parsed ← parseStylesheet fuel bval none
        let (blk, st) ← transformStylesheet fuel env parsed
          { parent := some uid, styleRule := .container uid } st
        let selector :=
          if st.elementSelectors.length > 0 then
            some (", ".intercalate st.elementSelectors)
          else none
        let descriptor : ContainerQueryDescriptor :=
          { rule, uid, selector, parent := context.parent }
        let st := { st with
          descriptors := st.descriptors ++ [descriptor],
          elementSelectors := savedElementSelectors,
          invalidSelectors := savedInvalidSelectors }
        pure (.atRuleNode "media" [ident "all"]
          (some (.blockNode bsrc .ruleList blk.value)), st)
    | _ => pure (node, st)

/-- `transformStyleRule` from transform.ts, combined with the
`transformStyleRule` closure of the transform context: the declaration
block is rewritten first, then the context's selector rewriting runs. -/
def transformStyleRule (fuel : Nat) (env : Env) (node : Node)
    (context : TransformContext) (st : TState) : Except JsError (Node × TState) :=
  match fuel with
  | 0 => throw fuelMsg
  | fuel + 1 =>
    match node with
    | .qualifiedRuleNode rulePrelude value => do
      let (value, st) ← transformDeclarationBlockWithContext fuel env value context st
      let rule := Node.qualifiedRuleNode rulePrelude value
      match context.styleRule with
      | .identity => pure (rule, st)
      | .container uid => do
        let (elementSelector, styleSelector, newInvalids) ←
          transformSelector fuel env rulePrelude uid
        let st := { st with invalidSelectors := st.invalidSelectors ++ newInvalids }
        if st.invalidSelectors.length > 0 then
          pure (rule, st)
        else do
          let elementSelectorText ← serializeList elementSelector
          let st :=
            if env.matchesThrows elementSelectorText then st
            else { st with
              elementSelectors := addElementSelector st.elementSelectors elementSelectorText }
          pure (.qualifiedRuleNode styleSelector value, st)
    | _ => pure (node, st)

end

/-- The URL-rewriting loop of `transpileStyleSheet`: URL tokens and the
string argument directly following a `url(` function token are resolved
against the base URL (`new URL` throwing is propagated). -/
def rewriteUrls (env : Env) (srcUrl : String) : List Node → Except JsError (List Node)
  | [] => pure []
  | .urlToken v :: rest => do
    match env.resolveUrl v srcUrl with
    | some r => do
      let tail ← rewriteUrls env srcUrl rest
      pure (.urlToken r :: tail)
    | none => throw "TypeError: Invalid URL"
  | .functionToken f :: .stringToken s :: rest =>
    if jsToLower f = "url" then do
      match env.resolveUrl s srcUrl with
      | some r => do
        let tail ← rewriteUrls env srcUrl rest
        pure (.functionToken f :: .stringToken r :: tail)
      | none => throw "TypeError: Invalid URL"
    else do
      let tail ← rewriteUrls env srcUrl (.stringToken s :: rest)
      pure (.functionToken f :: tail)
  | t :: rest => do
    let tail ← rewriteUrls env srcUrl rest
    pure (t :: tail)

/-- The body of `transpileStyleSheet`'s `try` block.  Returns the result
and the final `CONTAINER_ID` counter. -/
def transpileStyleSheetInternal (fuel : Nat) (env : Env) (counter : Nat)
    (sheetSrc : String) (srcUrl : Option String) :
    Except JsError (TranspilationResult × Nat) := do
  let tokens := tokenize sheetSrc
  let tokens ← match srcUrl with
    | some u => rewriteUrls env u tokens
    | none => pure tokens
  let parsed ← parseStylesheet fuel tokens (some true)
  let (rules, st) ← transformStylesheet fuel env parsed
    { parent := none, styleRule := .identity }
    { nextId := counter, descriptors := [],
      elementSelectors := [], invalidSelectors := [] }
  let source ← serializeBlock rules 0
  pure ({ source, descriptors := st.descriptors }, st.nextId)

/-- `transpileStyleSheet` from transform.ts: any exception in the body is
caught and the original source with an empty descriptor list returned.
(The real global counter may retain increments made before a throw; no
observable result depends on it, and the model restores it.) -/
def transpileStyleSheet (fuel : Nat) (env : Env) (counter : Nat)
    (sheetSrc : String) (srcUrl : Option String) : TranspilationResult × Nat :=
  match transpileStyleSheetInternal fuel env counter sheetSrc srcUrl with
  | .ok r => r
  | .error _ => ({ source := sheetSrc, descriptors := [] }, counter)

/-! ### Proof infrastructure definitions -/

/-- The uid string allocated for counter value `m` (`` `c${CONTAINER_ID++}` ``). -/
def uidStr (m : ℕ) : String := "c" ++ Nat.repr m

/-- Decimal decoding of a digit string (left inverse of `Nat.repr`). -/
def toNatM (l : List Char) : ℕ :=
  l.foldl (fun acc c => acc * 10 + (c.toNat - 48)) 0

/-- The new descriptors produced by one transformer step: each carries a
uid allocated in the counter interval `[lo, hi)`, and their uids are
pairwise distinct. -/
def NewDescs (lo hi : ℕ) (new : List ContainerQueryDescriptor) : Prop :=
  (∀ d ∈ new, ∃ m, lo ≤ m ∧ m < hi ∧ d.uid = uidStr m) ∧
    (new.map ContainerQueryDescriptor.uid).Nodup

/-- Relation between transformer states across one step: the counter is
monotone and the descriptor list grows by descriptors with fresh uids. -/
def StepOK (st st' : TState) : Prop :=
  st.nextId ≤ st'.nextId ∧
    ∃ new, st'.descriptors = st.descriptors ++ new ∧
      NewDescs st.nextId st'.nextId new

end CQPoly

namespace CQPoly

/-! ### Helper lemmas -/

theorem exBind_ok {α β : Type} {e : Except JsError α} {f : α → Except JsError β}
    {b : β} : (e >>= f) = .ok b ↔ ∃ a, e = .ok a ∧ f a = .ok b := by
  cases e <;> simp [Bind.bind, Except.bind]

theorem toDigitsCore_eq_toDigits (n : ℕ) : ∀ fuel ds, n < fuel →
    Nat.toDigitsCore 10 fuel n ds = Nat.toDigits 10 n ++ ds := by
  induction n using Nat.strong_induction_on with
  | _ n ih =>
    intro fuel ds hlt
    match fuel, hlt with
    | fuel + 1, hlt =>
      rw [Nat.toDigitsCore]
      by_cases hq : n / 10 = 0
      · rw [if_pos hq, Nat.toDigits, Nat.toDigitsCore]
        rw [if_pos hq]
        simp
      · rw [if_neg hq]
        have hn10 : 10 ≤ n := by
          rcases Nat.lt_or_ge n 10 with h | h
          · exact absurd (Nat.div_eq_of_lt h) hq
          · exact h
        have hqn : n / 10 < n := Nat.div_lt_self (by omega) (by omega)
        rw [ih (n / 10) hqn fuel _ (by omega)]
        conv_rhs => rw [Nat.toDigits, Nat.toDigitsCore]
        rw [if_neg hq]
        rw [ih (n / 10) hqn n _ (by omega)]
        simp

theorem digitChar_toNat_sub (r : ℕ) (h : r < 10) :
    (Nat.digitChar r).toNat - 48 = r := by
  interval_cases r <;> rfl

theorem toNatM_append_singleton (l : List Char) (c : Char) :
    toNatM (l ++ [c]) = toNatM l * 10 + (c.toNat - 48) := by
  simp [toNatM, List.foldl_append]

theorem toNatM_toDigits (n : ℕ) : toNatM (Nat.toDigits 10 n) = n := by
  induction n using Nat.strong_induction_on with
  | _ n ih =>
    rw [Nat.toDigits, Nat.toDigitsCore]
    by_cases hq : n / 10 = 0
    · rw [if_pos hq]
      have hn : n < 10 := by
        rcases Nat.lt_or_ge n 10 with h | h
        · exact h
        · exact absurd hq (by
            have : n / 10 ≥ 1 := Nat.le_div_iff_mul_le (by omega) |>.mpr (by omega)
            omega)
      have hv := digitChar_toNat_sub n hn
      have hmod : n % 10 = n := Nat.mod_eq_of_lt hn
      simp [toNatM, hmod, hv]
    · rw [if_neg hq]
      have hn10 : 10 ≤ n := by
        rcases Nat.lt_or_ge n 10 with h | h
        · exact absurd (Nat.div_eq_of_lt h) hq
        · exact h
      have hqn : n / 10 < n := Nat.div_lt_self (by omega) (by omega)
      rw [toDigitsCore_eq_toDigits (n / 10) n _ (by omega)]
      rw [toNatM_append_singleton, ih (n / 10) hqn,
        digitChar_toNat_sub (n % 10) (Nat.mod_lt _ (by omega))]
      omega

theorem natRepr_inj {m n : ℕ} (h : Nat.repr m = Nat.repr n) : m = n := by
  have hd : Nat.toDigits 10 m = Nat.toDigits 10 n := by
    have := congrArg String.data h
    simpa [Nat.repr, List.asString] using this
  have := congrArg toNatM hd
  rwa [toNatM_toDigits, toNatM_toDigits] at this

theorem uidStr_inj {m n : ℕ} (h : uidStr m = uidStr n) : m = n := by
  have hd := congrArg String.data h
  simp only [uidStr, String.data_append] at hd
  exact natRepr_inj (by
    have : (Nat.repr m).data = (Nat.repr n).data := by
      simpa using hd
    cases hm : Nat.repr m
    cases hn : Nat.repr n
    simp_all [String.ext_iff])

theorem newDescs_nil (lo hi : ℕ) : NewDescs lo hi [] := by
  constructor
  · intro d hd
    simp at hd
  · simp

theorem newDescs_mono {lo hi lo' hi' : ℕ} {new : List ContainerQueryDescriptor}
    (h : NewDescs lo hi new) (hlo : lo' ≤ lo) (hhi : hi ≤ hi') :
    NewDescs lo' hi' new := by
  obtain ⟨hall, hnd⟩ := h
  refine ⟨fun d hd => ?_, hnd⟩
  obtain ⟨m, h1, h2, h3⟩ := hall d hd
  exact ⟨m, by omega, by omega, h3⟩

theorem newDescs_append {lo mid hi : ℕ} {n₁ n₂ : List ContainerQueryDescriptor}
    (h₁ : NewDescs lo mid n₁) (h₂ : NewDescs mid hi n₂) (hlm : lo ≤ mid)
    (hmh : mid ≤ hi) : NewDescs lo hi (n₁ ++ n₂) := by
  obtain ⟨hall₁, hnd₁⟩ := h₁
  obtain ⟨hall₂, hnd₂⟩ := h₂
  constructor
  · intro d hd
    rcases List.mem_append.mp hd with hd | hd
    · obtain ⟨m, a, b, c⟩ := hall₁ d hd
      exact ⟨m, a, by omega, c⟩
    · obtain ⟨m, a, b, c⟩ := hall₂ d hd
      exact ⟨m, by omega, b, c⟩
  · rw [List.map_append, List.nodup_append]
    refine ⟨hnd₁, hnd₂, ?_⟩
    intro u hu₁ hu₂
    obtain ⟨d₁, hd₁, rfl⟩ := List.mem_map.mp hu₁
    obtain ⟨d₂, hd₂, he⟩ := List.mem_map.mp hu₂
    obtain ⟨m₁, a₁, b₁, c₁⟩ := hall₁ d₁ hd₁
    obtain ⟨m₂, a₂, b₂, c₂⟩ := hall₂ d₂ hd₂
    have : m₁ = m₂ := uidStr_inj (by rw [← c₁, ← he, c₂])
    omega

theorem stepOK_refl (st : TState) : StepOK st st :=
  ⟨le_refl _, [], by simp, newDescs_nil _ _⟩

theorem stepOK_trans {st st₁ st₂ : TState} (h₁ : StepOK st st₁)
    (h₂ : StepOK st₁ st₂) : StepOK st st₂ := by
  obtain ⟨hm₁, n₁, he₁, hn₁⟩ := h₁
  obtain ⟨hm₂, n₂, he₂, hn₂⟩ := h₂
  exact ⟨le_trans hm₁ hm₂, n₁ ++ n₂, by rw [he₂, he₁, List.append_assoc],
    newDescs_append hn₁ hn₂ hm₁ hm₂⟩

theorem stepOK_of_unchanged {st st' : TState} (h₁ : st'.nextId = st.nextId)
    (h₂ : st'.descriptors = st.descriptors) : StepOK st st' :=
  ⟨le_of_eq h₁.symm, [], by simp [h₂], newDescs_nil _ _⟩

theorem newDescs_snoc_low {lo hi : ℕ} {new : List ContainerQueryDescriptor}
    (h : NewDescs (lo + 1) hi new) (hlh : lo + 1 ≤ hi)
    (d : ContainerQueryDescriptor) (hd : d.uid = uidStr lo) :
    NewDescs lo hi (new ++ [d]) := by
  obtain ⟨hall, hnd⟩ := h
  constructor
  · intro x hx
    rcases List.mem_append.mp hx with hx | hx
    · obtain ⟨m, a, b, c⟩ := hall x hx
      exact ⟨m, by omega, b, c⟩
    · rw [List.mem_singleton.mp hx]
      exact ⟨lo, le_refl _, by omega, hd⟩
  · rw [List.map_append, List.nodup_append]
    refine ⟨hnd, by simp, ?_⟩
    intro u hu₁ hu₂
    obtain ⟨d₁, hd₁, rfl⟩ := List.mem_map.mp hu₁
    obtain ⟨m₁, a₁, b₁, c₁⟩ := hall d₁ hd₁
    simp only [List.map_cons, List.map_nil, List.mem_singleton] at hu₂
    have : m₁ = lo := uidStr_inj (by rw [← c₁, hu₂, hd])
    omega

theorem ok_of_pure {α : Type} {a r : α} (h : (pure a : Except JsError α) = .ok r) :
    a = r := by
  simpa [pure, Except.pure] using h

theorem stepOK_pure {α : Type} {x : α} {st : TState} {r : α × TState}
    (h : (pure (x, st) : Except JsError (α × TState)) = .ok r) : StepOK st r.2 := by
  rw [← ok_of_pure h]
  exact stepOK_refl st

theorem precomputeLoop_unknown :
    ∀ (features : List SizeFeature) (sf : SizeFeatures) (acc : List (SizeFeature × Value)),
    (∃ f ∈ features, precomputeFeatureValue f sf = .unknown) →
    precomputeLoop features sf acc = none := by
  intro features
  induction features with
  | nil =>
    rintro sf acc ⟨f, hf, _⟩
    simp at hf
  | cons g rest ih =>
    rintro sf acc ⟨f, hf, hu⟩
    cases hg : precomputeFeatureValue g sf <;> simp only [precomputeLoop, hg]
    all_goals {
      rcases List.mem_cons.mp hf with rfl | hf'
      · rw [hg] at hu
        exact absurd hu (by simp)
      · exact ih sf _ ⟨f, hf', hu⟩
    }

theorem evalBool_feature (f : SizeFeature) (ctx : QueryContext) :
    evaluateExpressionToBoolean (.feature f) ctx =
      evaluateValueToBoolean (evaluateFeatureToValue f ctx) := by
  simp only [evaluateExpressionToBoolean]

theorem evalBool_comparison (op : ComparisonOperator) (l r : ExpressionNode)
    (ctx : QueryContext) :
    evaluateExpressionToBoolean (.comparison op l r) ctx =
      evaluateComparisonExpression op l r ctx := by
  simp only [evaluateExpressionToBoolean]

theorem evalValue_feature (f : SizeFeature) (ctx : QueryContext) :
    evaluateExpressionToValue (.feature f) ctx = evaluateFeatureToValue f ctx := by
  simp only [evaluateExpressionToValue]

theorem evalValue_value (v : Value) (ctx : QueryContext) :
    evaluateExpressionToValue (.value v) ctx = v := by
  simp only [evaluateExpressionToValue]

theorem stepOK_alloc_push {st st₃ st₄ st₅ : TState} {d : ContainerQueryDescriptor}
    (hstep : StepOK st₃ st₄)
    (h₃n : st₃.nextId = st.nextId + 1) (h₃d : st₃.descriptors = st.descriptors)
    (h₅n : st₅.nextId = st₄.nextId)
    (h₅d : st₅.descriptors = st₄.descriptors ++ [d])
    (hd : d.uid = uidStr st.nextId) : StepOK st st₅ := by
  obtain ⟨hmono, new, hdesc, hnd⟩ := hstep
  rw [h₃n] at hmono hnd
  rw [h₃d] at hdesc
  refine ⟨by omega, new ++ [d], ?_, ?_⟩
  · rw [h₅d, hdesc, List.append_assoc]
  · rw [h₅n]
    exact newDescs_snoc_low hnd (by omega) d hd

theorem transformStepOK : ∀ fuel : Nat,
    (∀ env node ctx st r, transformStylesheet fuel env node ctx st = .ok r →
      StepOK st r.2) ∧
    (∀ env rules ctx st r, transformRuleListLoop fuel env rules ctx st = .ok r →
      StepOK st r.2) ∧
    (∀ env node ctx st r, transformAtRule fuel env node ctx st = .ok r →
      StepOK st r.2) ∧
    (∀ env node ctx st r, transformMediaAtRule fuel env node ctx st = .ok r →
      StepOK st r.2) ∧
    (∀ env node ctx st r, transformKeyframesAtRule fuel env node ctx st = .ok r →
      StepOK st r.2) ∧
    (∀ env rules ctx st r, transformKeyframesLoop fuel env rules ctx st = .ok r →
      StepOK st r.2) ∧
    (∀ env node ctx st r, transformKeyframeRule fuel env node ctx st = .ok r →
      StepOK st r.2) ∧
    (∀ env node ctx st r, transformDeclarationBlockWithContext fuel env node ctx st = .ok r →
      StepOK st r.2) ∧
    (∀ env node ctx st r, transformDeclarationBlock fuel env node ctx st = .ok r →
      StepOK st r.2) ∧
    (∀ env members ctx decls cn ct st r,
      transformDeclarationLoop fuel env members ctx decls cn ct st = .ok r →
      StepOK st r.2.2.2) ∧
    (∀ env node ctx st r, transformSupportsAtRule fuel env node ctx st = .ok r →
      StepOK st r.2) ∧
    (∀ env node ctx st r, transformLayerAtRule fuel env node ctx st = .ok r →
      StepOK st r.2) ∧
    (∀ env node ctx st r, transformContainerAtRule fuel env node ctx st = .ok r →
      StepOK st r.2) ∧
    (∀ env node ctx st r, transformStyleRule fuel env node ctx st = .ok r →
      StepOK st r.2) := by
  intro fuel
  induction fuel with
  | zero =>
    refine ⟨?_, ?_, ?_, ?_, ?_, ?_, ?_, ?_, ?_, ?_, ?_, ?_, ?_, ?_⟩
    · intro env node ctx st r h
      simp [transformStylesheet, throw, throwThe, MonadExceptOf.throw] at h
    · intro env rules ctx st r h
      simp [transformRuleListLoop, throw, throwThe, MonadExceptOf.throw] at h
    · intro env node ctx st r h
      simp [transformAtRule, throw, throwThe, MonadExceptOf.throw] at h
    · intro env node ctx st r h
      simp [transformMediaAtRule, throw, throwThe, MonadExceptOf.throw] at h
    · intro env node ctx st r h
      simp [transformKeyframesAtRule, throw, throwThe, MonadExceptOf.throw] at h
    · intro env rules ctx st r h
      simp [transformKeyframesLoop, throw, throwThe, MonadExceptOf.throw] at h
    · intro env node ctx st r h
      simp [transformKeyframeRule, throw, throwThe, MonadExceptOf.throw] at h
    · intro env node ctx st r h
      simp [transformDeclarationBlockWithContext, throw, throwThe, MonadExceptOf.throw] at h
    · intro env node ctx st r h
      simp [transformDeclarationBlock, throw, throwThe, MonadExceptOf.throw] at h
    · intro env members ctx decls cn ct st r h
      simp [transformDeclarationLoop, throw, throwThe, MonadExceptOf.throw] at h
    · intro env node ctx st r h
      simp [transformSupportsAtRule, throw, throwThe, MonadExceptOf.throw] at h
    · intro env node ctx st r h
      simp [transformLayerAtRule, throw, throwThe, MonadExceptOf.throw] at h
    · intro env node ctx st r h
      simp [transformContainerAtRule, throw, throwThe, MonadExceptOf.throw] at h
    · intro env node ctx st r h
      simp [transformStyleRule, throw, throwThe, MonadExceptOf.throw] at h
  | succ fuel ih =>
    obtain ⟨ihSS, ihRL, ihAR, ihMA, ihKA, ihKL, ihKR, ihDW, ihDB, ihDL, ihSA,
      ihLA, ihCA, ihSR⟩ := ih
    refine ⟨?_, ?_, ?_, ?_, ?_, ?_, ?_, ?_, ?_, ?_, ?_, ?_, ?_, ?_⟩
    -- transformStylesheet
    · intro env node ctx st r h
      simp only [transformStylesheet] at h
      obtain ⟨⟨value, st₁⟩, h1, h2⟩ := exBind_ok.mp h
      have := ihRL env node.value ctx st (value, st₁) h1
      rw [← ok_of_pure h2]
      exact this
    -- transformRuleListLoop
    · intro env rules ctx st r h
      simp only [transformRuleListLoop] at h
      split at h
      · exact stepOK_pure h
      · split at h
        · obtain ⟨⟨rule₁, st₁⟩, h1, h2⟩ := exBind_ok.mp h
          obtain ⟨⟨rest₁, st₂⟩, h3, h4⟩ := exBind_ok.mp h2
          rw [← ok_of_pure h4]
          exact stepOK_trans (ihAR env _ ctx st _ h1) (ihRL env _ ctx st₁ (rest₁, st₂) h3)
        · obtain ⟨⟨rule₁, st₁⟩, h1, h2⟩ := exBind_ok.mp h
          obtain ⟨⟨rest₁, st₂⟩, h3, h4⟩ := exBind_ok.mp h2
          rw [← ok_of_pure h4]
          exact stepOK_trans (ihSR env _ ctx st _ h1) (ihRL env _ ctx st₁ (rest₁, st₂) h3)
        · obtain ⟨⟨rule₁, st₁⟩, h1, h2⟩ := exBind_ok.mp h
          obtain ⟨⟨rest₁, st₂⟩, h3, h4⟩ := exBind_ok.mp h2
          rw [← ok_of_pure h4]
          exact stepOK_trans (stepOK_pure h1) (ihRL env _ ctx st₁ (rest₁, st₂) h3)
    -- transformAtRule
    · intro env node ctx st r h
      simp only [transformAtRule] at h
      split at h
      · split at h
        · exact ihMA env _ ctx st r h
        · exact ihKA env _ ctx st r h
        · exact ihSA env _ ctx st r h
        · exact ihCA env _ ctx st r h
        · exact ihLA env _ ctx st r h
        · exact stepOK_pure h
      · exact stepOK_pure h
    -- transformMediaAtRule
    · intro env node ctx st r h
      simp only [transformMediaAtRule] at h
      split at h
      · obtain ⟨parsed, h1, h2⟩ := exBind_ok.mp h
        obtain ⟨⟨blk, st₁⟩, h3, h4⟩ := exBind_ok.mp h2
        have := ihSS env parsed ctx st (blk, st₁) h3
        rw [← ok_of_pure h4]
        exact this
      · exact stepOK_pure h
    -- transformKeyframesAtRule
    · intro env node ctx st r h
      simp only [transformKeyframesAtRule] at h
      split at h
      · obtain ⟨parsed, h1, h2⟩ := exBind_ok.mp h
        obtain ⟨⟨rules₁, st₁⟩, h3, h4⟩ := exBind_ok.mp h2
        have := ihKL env parsed.value ctx st (rules₁, st₁) h3
        rw [← ok_of_pure h4]
        exact this
      · exact stepOK_pure h
    -- transformKeyframesLoop
    · intro env rules ctx st r h
      simp only [transformKeyframesLoop] at h
      split at h
      · exact stepOK_pure h
      · split at h
        · obtain ⟨⟨rule₁, st₁⟩, h1, h2⟩ := exBind_ok.mp h
          obtain ⟨⟨rest₁, st₂⟩, h3, h4⟩ := exBind_ok.mp h2
          rw [← ok_of_pure h4]
          exact stepOK_trans (ihKR env _ ctx st _ h1) (ihKL env _ ctx st₁ (rest₁, st₂) h3)
        · obtain ⟨⟨rule₁, st₁⟩, h1, h2⟩ := exBind_ok.mp h
          obtain ⟨⟨rest₁, st₂⟩, h3, h4⟩ := exBind_ok.mp h2
          rw [← ok_of_pure h4]
          exact stepOK_trans (ihAR env _ ctx st _ h1) (ihKL env _ ctx st₁ (rest₁, st₂) h3)
        · obtain ⟨⟨rule₁, st₁⟩, h1, h2⟩ := exBind_ok.mp h
          obtain ⟨⟨rest₁, st₂⟩, h3, h4⟩ := exBind_ok.mp h2
          rw [← ok_of_pure h4]
          exact stepOK_trans (stepOK_pure h1) (ihKL env _ ctx st₁ (rest₁, st₂) h3)
    -- transformKeyframeRule
    · intro env node ctx st r h
      simp only [transformKeyframeRule] at h
      split at h
      · obtain ⟨⟨value, st₁⟩, h1, h2⟩ := exBind_ok.mp h
        have := ihDW env _ ctx st (value, st₁) h1
        rw [← ok_of_pure h2]
        exact this
      · exact stepOK_pure h
    -- transformDeclarationBlockWithContext
    · intro env node ctx st r h
      simp only [transformDeclarationBlockWithContext] at h
      exact ihDB env node (some ctx) st r h
    -- transformDeclarationBlock
    · intro env node ctx st r h
      simp only [transformDeclarationBlock] at h
      split at h
      · obtain ⟨⟨decls, cn, ct, st₁⟩, h1, h2⟩ := exBind_ok.mp h
        have := ihDL env _ ctx [] none none st (decls, cn, ct, st₁) h1
        rw [← ok_of_pure h2]
        exact this
      · exact stepOK_pure h
    -- transformDeclarationLoop
    · intro env members ctx decls cn ct st r h
      simp only [transformDeclarationLoop] at h
      split at h
      -- []
      · rw [← ok_of_pure h]
        exact stepOK_refl st
      -- member :: rest
      · split at h
        -- atRule member
        · split at h
          · obtain ⟨⟨newAtRule, st₁⟩, h1, h2⟩ := exBind_ok.mp h
            exact stepOK_trans (ihAR env _ _ st _ h1) (ihDL env _ _ _ cn ct st₁ r h2)
          · obtain ⟨⟨newAtRule, st₁⟩, h1, h2⟩ := exBind_ok.mp h
            exact stepOK_trans (stepOK_pure h1) (ihDL env _ _ _ cn ct st₁ r h2)
        -- declaration member
        · split at h
          · obtain ⟨result, h1, h2⟩ := exBind_ok.mp h
            exact ihDL env _ ctx _ _ _ st r h2
          · split at h
            · exact ihDL env _ ctx _ _ _ st r h
            · split at h
              · exact ihDL env _ ctx _ _ _ st r h
              · exact ihDL env _ ctx _ _ _ st r h
        -- other member
        · exact ihDL env _ ctx _ _ _ st r h
    -- transformSupportsAtRule
    · intro env node ctx st r h
      simp only [transformSupportsAtRule] at h
      split at h
      · obtain ⟨c, h1, h2⟩ := exBind_ok.mp h
        split at h2
        · obtain ⟨c', h3, h4⟩ := exBind_ok.mp h2
          obtain ⟨y, h5, h6⟩ := exBind_ok.mp h4
          split at h6
          · obtain ⟨parsed, h7, h8⟩ := exBind_ok.mp h6
            obtain ⟨⟨blk, st₁⟩, h9, h10⟩ := exBind_ok.mp h8
            have := ihSS env parsed ctx st (blk, st₁) h9
            rw [← ok_of_pure h10]
            exact this
          · exact stepOK_pure h6
        · obtain ⟨y, h5, h6⟩ := exBind_ok.mp h2
          split at h6
          · obtain ⟨parsed, h7, h8⟩ := exBind_ok.mp h6
            obtain ⟨⟨blk, st₁⟩, h9, h10⟩ := exBind_ok.mp h8
            have := ihSS env parsed ctx st (blk, st₁) h9
            rw [← ok_of_pure h10]
            exact this
          · exact stepOK_pure h6
      · exact stepOK_pure h
    -- transformLayerAtRule
    · intro env node ctx st r h
      simp only [transformLayerAtRule] at h
      split at h
      · obtain ⟨parsed, h1, h2⟩ := exBind_ok.mp h
        obtain ⟨⟨blk, st₁⟩, h3, h4⟩ := exBind_ok.mp h2
        have := ihSS env parsed ctx st (blk, st₁) h3
        rw [← ok_of_pure h4]
        exact this
      · exact stepOK_pure h
    -- transformContainerAtRule
    · intro env node ctx st r h
      simp only [transformContainerAtRule] at h
      split at h
      · obtain ⟨ruleOpt, h1, h2⟩ := exBind_ok.mp h
        split at h2
        · exact stepOK_pure h2
        · obtain ⟨parsed, h3, h4⟩ := exBind_ok.mp h2
          obtain ⟨⟨blk, st₄⟩, h5, h6⟩ := exBind_ok.mp h4
          rw [← ok_of_pure h6]
          exact stepOK_alloc_push (ihSS env parsed _ _ (blk, st₄) h5) rfl rfl rfl rfl rfl
      · exact stepOK_pure h
    -- transformStyleRule
    · intro env node ctx st r h
      simp only [transformStyleRule] at h
      split at h
      · obtain ⟨⟨value, st₁⟩, h1, h2⟩ := exBind_ok.mp h
        have s1 := ihDW env _ ctx st (value, st₁) h1
        split at h2
        · exact stepOK_trans s1 (stepOK_pure h2)
        · obtain ⟨⟨es, ssel, inv⟩, h3, h4⟩ := exBind_ok.mp h2
          split at h4
          · have s2 : StepOK st₁ r.2 := by
              rw [← ok_of_pure h4]
              exact stepOK_of_unchanged rfl rfl
            exact stepOK_trans s1 s2
          · obtain ⟨text, h5, h6⟩ := exBind_ok.mp h4
            have s2 : StepOK st₁ r.2 := by
              rw [← ok_of_pure h6]
              split
              · exact stepOK_of_unchanged rfl rfl
              · exact stepOK_of_unchanged rfl rfl
            exact stepOK_trans s1 s2
      · exact stepOK_pure h

/-! ### Claim theorems -/

/-- C5: over a single transpilation run, the `uid` values of all emitted
container-query descriptors are pairwise distinct: each one is minted as
`"c"` followed by the decimal value of a strictly increasing counter. -/
theorem C5_descriptor_uids_unique (fuel : Nat) (env : Env) (counter : Nat)
    (src : String) (url : Option String) :
    (((transpileStyleSheet fuel env counter src url).1).descriptors.map
      ContainerQueryDescriptor.uid).Nodup := by
  unfold transpileStyleSheet
  cases hi : transpileStyleSheetInternal fuel env counter src url with
  | error e => simp
  | ok r =>
    unfold transpileStyleSheetInternal at hi
    split at hi
    · obtain ⟨tokens₁, h1, h2⟩ := exBind_ok.mp hi
      obtain ⟨parsed, h3, h4⟩ := exBind_ok.mp h2
      obtain ⟨⟨rules, st⟩, h5, h6⟩ := exBind_ok.mp h4
      obtain ⟨source, h7, h8⟩ := exBind_ok.mp h6
      obtain ⟨hmono, new, hdesc, hall, hnd⟩ := (transformStepOK fuel).1 _ _ _ _ _ h5
      rw [← ok_of_pure h8]
      dsimp
      rw [hdesc]
      simpa using hnd
    · obtain ⟨tokens₁, h1, h2⟩ := exBind_ok.mp hi
      obtain ⟨parsed, h3, h4⟩ := exBind_ok.mp h2
      obtain ⟨⟨rules, st⟩, h5, h6⟩ := exBind_ok.mp h4
      obtain ⟨source, h7, h8⟩ := exBind_ok.mp h6
      obtain ⟨hmono, new, hdesc, hall, hnd⟩ := (transformStepOK fuel).1 _ _ _ _ _ h5
      rw [← ok_of_pure h8]
      dsimp
      rw [hdesc]
      simpa using hnd

/-- C2: if any size feature in the rule's feature set precomputes to
unknown, `evaluateContainerCondition` returns unknown (`none`),
regardless of the shape of the condition AST. -/
theorem C2_unknown_contagion (rule : ContainerRule) (context : EvalContext)
    (h : ∃ f ∈ rule.features, precomputeFeatureValue f context.sizeFeatures = .unknown) :
    evaluateContainerCondition rule context = none := by
  unfold evaluateContainerCondition
  rw [precomputeLoop_unknown rule.features _ [] h]

/-- Witness for C2: a rule over `width` with the width missing from the
size snapshot evaluates to unknown. -/
theorem C2_witness :
    (∃ f ∈ [SizeFeature.width],
      precomputeFeatureValue f ({} : SizeFeatures) = .unknown) ∧
    evaluateContainerCondition
      { name := none, condition := .feature .width, features := [.width] }
      { sizeFeatures := {},
        treeContext :=
          { cqw := none, cqh := none, fontSize := 16, rootFontSize := 16,
            writingAxis := .horizontal } } = none :=
  ⟨⟨.width, by simp, rfl⟩,
    C2_unknown_contagion _ _ ⟨.width, by simp, rfl⟩⟩

/-- C10: in boolean context a number or dimension value yields true
exactly when its numeric value is strictly positive, a boolean yields
itself, and unknown or orientation values yield unknown; consequently the
boolean-form feature `(width)` is true iff the width is positive and
unknown when the width is missing. -/
theorem C10_boolean_context :
    (∀ q : ℚ, evaluateValueToBoolean (.number (some q)) = .boolean (decide (0 < q))) ∧
    (∀ (q : ℚ) (unit : String),
      evaluateValueToBoolean (.dimension (some q) unit) = .boolean (decide (0 < q))) ∧
    (∀ b : Bool, evaluateValueToBoolean (.boolean b) = .boolean b) ∧
    evaluateValueToBoolean .unknown = .unknown ∧
    (∀ o : OrientationKw, evaluateValueToBoolean (.orientation o) = .unknown) ∧
    (∀ (sf : SizeFeatures) (tc : TreeContext),
      evaluateContainerCondition
        { name := none, condition := .feature .width, features := [.width] }
        { sizeFeatures := sf, treeContext := tc } =
        sf.width.map (fun w => decide (0 < w))) := by
  refine ⟨fun q => rfl, fun q unit => rfl, fun b => rfl, rfl, fun o => rfl, ?_⟩
  intro sf tc
  cases hw : sf.width with
  | none =>
    simp [evaluateContainerCondition, precomputeLoop, precomputeFeatureValue, hw]
  | some w =>
    unfold evaluateContainerCondition
    have h1 : precomputeLoop [SizeFeature.width] sf [] =
        some [(SizeFeature.width, Value.dimension (some w) "px")] := by
      simp [precomputeLoop, precomputeFeatureValue, hw]
    rw [h1]
    dsimp only
    rw [evalBool_feature]
    simp [evaluateFeatureToValue, mapGet, List.find?, evaluateValueToBoolean,
      jsGt, jsLt, hw]

set_option maxRecDepth 4000 in
/-- C1 counterexample: evaluating `(width >= 50cqw)` in a context whose
`cqw` scale is null does not yield unknown — the comparison evaluates to
a definite boolean (`some true` with width 100). -/
theorem C1_counterexample :
    evaluateContainerCondition
      { name := none,
        condition := .comparison .GREATER_THAN_EQUAL (.feature .width)
          (.value (.dimension (some 50) "cqw")),
        features := [.width] }
      { sizeFeatures := { width := some 100 },
        treeContext :=
          { cqw := none, cqh := none, fontSize := 16, rootFontSize := 16,
            writingAxis := .horizontal } } = some true ∧
    (some true ≠ (none : Option Bool)) := by
  constructor
  · with_unfolding_all rfl
  · simp

/-- C1 amended: when the scale for a container-relative unit is absent,
`evaluateDimensionToPixels` returns the dimension's raw numeric value
(`transformNullableNumbers` drops the null operand), so the comparison
evaluates to a definite boolean; `(width >= 50cqw)` with `cqw` null and
width 100 evaluates to true. -/
theorem C1_scale_absent_returns_value :
    (∀ (v : JSNum) (tc : TreeContext), getContainerRelativeLengthScale "cqw" tc = none →
      evaluateDimensionToPixels v "cqw" tc = some v) ∧
    (∀ (v : JSNum) (tc : TreeContext), getContainerRelativeLengthScale "cqh" tc = none →
      evaluateDimensionToPixels v "cqh" tc = some v) ∧
    (∀ (v : JSNum) (tc : TreeContext), getContainerRelativeLengthScale "cqi" tc = none →
      evaluateDimensionToPixels v "cqi" tc = some v) ∧
    (∀ (v : JSNum) (tc : TreeContext), getContainerRelativeLengthScale "cqb" tc = none →
      evaluateDimensionToPixels v "cqb" tc = some v) ∧
    (∀ (v : JSNum) (tc : TreeContext), getContainerRelativeLengthScale "cqmin" tc = none →
      evaluateDimensionToPixels v "cqmin" tc = some v) ∧
    (∀ (v : JSNum) (tc : TreeContext), getContainerRelativeLengthScale "cqmax" tc = none →
      evaluateDimensionToPixels v "cqmax" tc = some v) ∧
    (∀ w : ℚ, evaluateContainerCondition
      { name := none,
        condition := .comparison .GREATER_THAN_EQUAL (.feature .width)
          (.value (.dimension (some 50) "cqw")),
        features := [.width] }
      { sizeFeatures := { width := some w },
        treeContext :=
          { cqw := none, cqh := none, fontSize := 16, rootFontSize := 16,
            writingAxis := .horizontal } } = some (decide (50 ≤ w))) := by
  refine ⟨?_, ?_, ?_, ?_, ?_, ?_, ?_⟩
  · intro v tc h
    show transformNullableNumbers (some v) (getContainerRelativeLengthScale "cqw" tc)
      jsMul = some v
    rw [h]
    rfl
  · intro v tc h
    show transformNullableNumbers (some v) (getContainerRelativeLengthScale "cqh" tc)
      jsMul = some v
    rw [h]
    rfl
  · intro v tc h
    show transformNullableNumbers (some v) (getContainerRelativeLengthScale "cqi" tc)
      jsMul = some v
    rw [h]
    rfl
  · intro v tc h
    show transformNullableNumbers (some v) (getContainerRelativeLengthScale "cqb" tc)
      jsMul = some v
    rw [h]
    rfl
  · intro v tc h
    show transformNullableNumbers (some v) (getContainerRelativeLengthScale "cqmin" tc)
      jsMul = some v
    rw [h]
    rfl
  · intro v tc h
    show transformNullableNumbers (some v) (getContainerRelativeLengthScale "cqmax" tc)
      jsMul = some v
    rw [h]
    rfl
  · intro w
    unfold evaluateContainerCondition
    have h1 : precomputeLoop [SizeFeature.width] { width := some w } [] =
        some [(SizeFeature.width, Value.dimension (some w) "px")] := by
      simp [precomputeLoop, precomputeFeatureValue]
    rw [h1]
    dsimp only
    rw [evalBool_comparison]
    simp only [evaluateComparisonExpression, evalValue_feature, evalValue_value,
      evaluateFeatureToValue, mapGet, List.find?]
    simp [coerceToPixelDimension, evaluateDimensionToPixels,
      getContainerRelativeLengthScale, transformNullableNumbers, jsMul,
      compareNumericValue, compareNumericValueInternal, toBooleanValue,
      jsGe, jsLe]

/-- Witness for C1 amended: `50cqw` with a null `cqw` scale coerces to 50
pixels, and the oracle condition evaluates to true at width 100. -/
theorem C1_witness :
    evaluateDimensionToPixels (some 50) "cqw"
      { cqw := none, cqh := none, fontSize := 16, rootFontSize := 16,
        writingAxis := .horizontal } = some (some 50) ∧
    evaluateContainerCondition
      { name := none,
        condition := .comparison .GREATER_THAN_EQUAL (.feature .width)
          (.value (.dimension (some 50) "cqw")),
        features := [.width] }
      { sizeFeatures := { width := some 100 },
        treeContext :=
          { cqw := none, cqh := none, fontSize := 16, rootFontSize := 16,
            writingAxis := .horizontal } } = some true := by
  constructor
  · exact C1_scale_absent_returns_value.1 (some 50) _ rfl
  · have h := C1_scale_absent_returns_value.2.2.2.2.2.2 100
    simpa using h

/-- C7: the `!important` test looks at the literal last two children of
the declaration value list, not the last two non-whitespace children: a
trailing whitespace token defeats it (flag stays false, children kept),
while without the trailing whitespace the flag is set and both children
removed. -/
theorem C7_important_literal_last_two :
    Except.map Prod.fst (consumeDeclaration 99 (npCreate
      [.identToken "color", .colonToken, .identToken "red", .whitespaceToken,
       .delimToken "!", .identToken "important", .whitespaceToken])) =
      .ok (some (.declarationNode "color"
        [.identToken "red", .whitespaceToken, .delimToken "!",
         .identToken "important", .whitespaceToken] false)) ∧
    Except.map Prod.fst (consumeDeclaration 99 (npCreate
      [.identToken "color", .colonToken, .identToken "red", .whitespaceToken,
       .delimToken "!", .identToken "important"])) =
      .ok (some (.declarationNode "color"
        [.identToken "red", .whitespaceToken] true)) := by
  constructor
  · with_unfolding_all rfl
  · with_unfolding_all rfl

/-- C8: the media-feature value parser truncates numeric text via
`parseInt`: the float token `1.5` parses to the number 1 and the
dimension `10.5px` to 10px, not to the denoted values 3/2 and 21/2. -/
theorem C8_parseInt_truncates :
    consumeValue 99 [.numberToken "1.5" .NUMBER] =
      .ok (some (.value (.number (some 1)))) ∧
    consumeValue 99 [.dimensionToken "10.5" .NUMBER "px"] =
      .ok (some (.value (.dimension (some 10) "px"))) ∧
    (1 : ℚ) ≠ 3 / 2 ∧ (10 : ℚ) ≠ 21 / 2 := by
  refine ⟨?_, ?_, by norm_num, by norm_num⟩
  · with_unfolding_all rfl
  · with_unfolding_all rfl

/-- C6: serializing a string token emits its value unescaped between
double quotes, so the round-trip fails for string values containing a
quote: tokenizing `"a\"b"` yields one string token whose serialization
re-tokenizes into three tokens (no whitespace or comments involved). -/
theorem C6_string_roundtrip_fails :
    tokenize "\"a\\\"b\"" = [.stringToken "a\"b", .eofToken] ∧
    serializeList [.stringToken "a\"b"] = .ok "\"a\"b\"" ∧
    tokenize "\"a\"b\"" =
      [.stringToken "a", .identToken "b", .stringToken "", .eofToken] ∧
    tokenize "\"a\"b\"" ≠ tokenize "\"a\\\"b\"" := by
  refine ⟨?_, ?_, ?_, ?_⟩
  · with_unfolding_all rfl
  · with_unfolding_all rfl
  · with_unfolding_all rfl
  · intro h
    have h4 : (tokenize "\"a\"b\"").length = 4 := by with_unfolding_all rfl
    have h2 : (tokenize "\"a\\\"b\"").length = 2 := by with_unfolding_all rfl
    rw [h, h2] at h4
    exact absurd h4 (by decide)

/-- C9 counterexample: with whitespace between the `url(` function token
and its string argument, the URL-rewriting pass leaves the string
unchanged, although resolving it against the base would change it. -/
theorem C9_counterexample :
    rewriteUrls
      { isWptBuild := false, wherePseudoSupported := true,
        matchesThrows := fun _ => false,
        resolveUrl := fun v b => some (b ++ "/" ++ v), perRunUid := "t" }
      "base" [.functionToken "url", .whitespaceToken, .stringToken "a"] =
      .ok [.functionToken "url", .whitespaceToken, .stringToken "a"] ∧
    (some ("base" ++ "/" ++ "a") : Option String) = some "base/a" ∧
    ("base/a" : String) ≠ "a" := by
  refine ⟨?_, rfl, by decide⟩
  with_unfolding_all rfl

/-- C9 amended: URL tokens are always rewritten to the resolved URL, and
the first string argument of a `url(` function call is rewritten exactly
when it immediately follows the function token; with an intervening
whitespace token the string is left unchanged. -/
theorem C9_url_rewriting (env : Env) (base : String) (rest : List Node) :
    (∀ v r, env.resolveUrl v base = some r →
      rewriteUrls env base (.urlToken v :: rest) =
        (rewriteUrls env base rest).map (fun t => .urlToken r :: t)) ∧
    (∀ s r, env.resolveUrl s base = some r →
      rewriteUrls env base (.functionToken "url" :: .stringToken s :: rest) =
        (rewriteUrls env base rest).map
          (fun t => .functionToken "url" :: .stringToken r :: t)) ∧
    (∀ s, rewriteUrls env base
        (.functionToken "url" :: .whitespaceToken :: .stringToken s :: rest) =
      (rewriteUrls env base rest).map
        (fun t => .functionToken "url" :: .whitespaceToken :: .stringToken s :: t)) := by
  refine ⟨?_, ?_, ?_⟩
  · intro v r h
    cases ht : rewriteUrls env base rest <;>
      simp [rewriteUrls, h, ht, Except.map, Bind.bind, Except.bind, pure, Except.pure]
  · intro s r h
    have : jsToLower "url" = "url" := rfl
    cases ht : rewriteUrls env base rest <;>
      simp [rewriteUrls, h, ht, this, Except.map, Bind.bind, Except.bind, pure,
        Except.pure]
  · intro s
    cases ht : rewriteUrls env base rest <;>
      simp [rewriteUrls, ht, Except.map, Bind.bind, Except.bind, pure, Except.pure]

/-- C3: a `@container` at-rule with a block whose prelude parses as a
container rule is replaced by an `@media` at-rule with the single-ident
prelude `all` and the recursively transformed rule list as body; when
the prelude fails to parse the at-rule is returned unchanged. -/
theorem C3_container_to_media_all (fuel : Nat) (env : Env) (name : String)
    (rulePrelude : List Node) (bsrc : Node) (bbt : BlockTag) (bval : List Node)
    (ctx : TransformContext) (st : TState) :
    (parseContainerRule fuel rulePrelude = .ok none →
      transformContainerAtRule (fuel + 1) env
        (.atRuleNode name rulePrelude (some (.blockNode bsrc bbt bval))) ctx st =
        .ok (.atRuleNode name rulePrelude (some (.blockNode bsrc bbt bval)), st)) ∧
    (∀ (rule : ContainerRule) (parsed : Blk) (blk : Blk) (st' : TState),
      parseContainerRule fuel rulePrelude = .ok (some rule) →
      parseStylesheet fuel bval none = .ok parsed →
      transformStylesheet fuel env parsed
        { parent := some ("c" ++ Nat.repr st.nextId),
          styleRule := .container ("c" ++ Nat.repr st.nextId) }
        ⟨st.nextId + 1, st.descriptors, [], []⟩ = .ok (blk, st') →
      ∃ st'', transformContainerAtRule (fuel + 1) env
        (.atRuleNode name rulePrelude (some (.blockNode bsrc bbt bval))) ctx st =
        .ok (.atRuleNode "media" [ident "all"]
          (some (.blockNode bsrc .ruleList blk.value)), st'')) := by
  constructor
  · intro h
    simp only [transformContainerAtRule]
    rw [h]
    simp [Bind.bind, Except.bind, pure, Except.pure]
  · intro rule parsed blk st' h1 h2 h3
    simp only [transformContainerAtRule]
    rw [h1]
    simp only [Bind.bind, Except.bind]
    rw [h2]
    simp only []
    rw [h3]
    exact ⟨_, rfl⟩

/-- Witness for C3: a parse failure (`@container and (width) { }` has a
reserved-word prelude) leaves the rule unchanged, and a parsing prelude
(`(width)`) produces the `@media all` replacement. -/
theorem C3_witness :
    (parseContainerRule 99 [ident "and"] = .ok none ∧
      transformContainerAtRule 100
        { isWptBuild := false, wherePseudoSupported := true,
          matchesThrows := fun _ => false, resolveUrl := fun _ _ => none,
          perRunUid := "t" }
        (.atRuleNode "container" [ident "and"]
          (some (.blockNode .leftCurlyBracketToken .simpleBlock [])))
        { parent := none, styleRule := .identity }
        ⟨0, [], [], []⟩ =
        .ok (.atRuleNode "container" [ident "and"]
          (some (.blockNode .leftCurlyBracketToken .simpleBlock [])),
          ⟨0, [], [], []⟩)) ∧
    (∃ st'', transformContainerAtRule 100
        { isWptBuild := false, wherePseudoSupported := true,
          matchesThrows := fun _ => false, resolveUrl := fun _ _ => none,
          perRunUid := "t" }
        (.atRuleNode "container"
          [.blockNode .leftParenthesisToken .simpleBlock [ident "width"]]
          (some (.blockNode .leftCurlyBracketToken .simpleBlock [])))
        { parent := none, styleRule := .identity }
        ⟨0, [], [], []⟩ =
        .ok (.atRuleNode "media" [ident "all"]
          (some (.blockNode .leftCurlyBracketToken .ruleList [])), st'')) := by
  constructor
  · constructor
    · with_unfolding_all rfl
    · exact (C3_container_to_media_all 99 _ "container" [ident "and"]
        .leftCurlyBracketToken .simpleBlock [] _ _).1 (by with_unfolding_all rfl)
  · have h := (C3_container_to_media_all 99
      { isWptBuild := false, wherePseudoSupported := true,
        matchesThrows := fun _ => false, resolveUrl := fun _ _ => none,
        perRunUid := "t" } "container"
      [.blockNode .leftParenthesisToken .simpleBlock [ident "width"]]
      .leftCurlyBracketToken .simpleBlock []
      { parent := none, styleRule := .identity } ⟨0, [], [], []⟩).2
      { name := none, condition := .feature .width, features := [.width] }
      ⟨.ruleList, []⟩ ⟨.ruleList, []⟩ ⟨1, [], [], []⟩
      (by with_unfolding_all rfl) (by with_unfolding_all rfl)
      (by with_unfolding_all rfl)
    exact h

/-- C4: `transpileStyleSheet` returns the internal pipeline's result when
it succeeds, and when any internal exception occurs it returns the input
source unchanged with an empty descriptor list (and the incoming counter). -/
theorem C4_transpile_catches (fuel : Nat) (env : Env) (counter : Nat)
    (src : String) (url : Option String) :
    (∀ r, transpileStyleSheetInternal fuel env counter src url = .ok r →
      transpileStyleSheet fuel env counter src url = r) ∧
    (∀ e, transpileStyleSheetInternal fuel env counter src url = .error e →
      transpileStyleSheet fuel env counter src url =
        ({ source := src, descriptors := [] }, counter)) := by
  constructor
  · intro r h
    unfold transpileStyleSheet
    rw [h]
  · intro e h
    unfold transpileStyleSheet
    rw [h]

/-- Witness for C4: `@container (foo) { }` makes `parseSizeFeature`
dereference the `null` returned by `consumeMediaFeature` (a thrown
TypeError), and the public entry point falls back to the input source
with no descriptors. -/
theorem C4_witness :
    transpileStyleSheetInternal 999
      { isWptBuild := false, wherePseudoSupported := true,
        matchesThrows := fun _ => false, resolveUrl := fun _ _ => none,
        perRunUid := "t" } 0 "@container (foo) { }" none =
      .error "TypeError: Cannot read properties of null (reading 'feature')" ∧
    transpileStyleSheet 999
      { isWptBuild := false, wherePseudoSupported := true,
        matchesThrows := fun _ => false, resolveUrl := fun _ _ => none,
        perRunUid := "t" } 0 "@container (foo) { }" none =
      ({ source := "@container (foo) { }", descriptors := [] }, 0) := by
  constructor
  · with_unfolding_all rfl
  · exact (C4_transpile_catches 999 _ 0 "@container (foo) { }" none).2 _
      (by with_unfolding_all rfl)

/-- Witness for C9 amended: a string immediately after `url(` is
rewritten against the base. -/
theorem C9_witness :
    rewriteUrls
      { isWptBuild := false, wherePseudoSupported := true,
        matchesThrows := fun _ => false,
        resolveUrl := fun v b => some (b ++ "/" ++ v), perRunUid := "t" }
      "base" [.functionToken "url", .stringToken "a"] =
      .ok [.functionToken "url", .stringToken "base/a"] := by
  have h := (C9_url_rewriting
    { isWptBuild := false, wherePseudoSupported := true,
      matchesThrows := fun _ => false,
      resolveUrl := fun v b => some (b ++ "/" ++ v), perRunUid := "t" }
    "base" []).2.1 "a" "base/a" rfl
  simpa [rewriteUrls, Except.map] using h

end CQPoly
